import Mathlib

/-!
# MySQL handshake client (`protocol/protocol.go`, `protocol/packet.go`)

A shallow embedding of the handshake routine of `raylax/mysql_slave`:
the little-endian integer and NUL-terminated string codecs, the
HandshakeV10 parser with its capability gates, the native-password
scramble, the HandshakeResponse41 builder, the packet framer on top of a
buffered reader, and the parser of the server's reply.

Conventions of the embedding.
* A Go `byte` is a `Fin 256`; a Go `[]byte` and a Go `string` are both
  `List Byte` (the conversions `string(b)` and `[]byte(s)` copy the bytes).
* A Go `int` that is known to be non-negative is a `Nat`.  `readInt`
  returns the 64-bit pattern of its result, which is the `int` itself for
  every input of at most seven bytes (all call sites pass one to four).
* A slice expression that is out of range is the fault `Fault.panic`; an
  error value returned by `newError` or by the transport is a `GoError`.
* Every slice that is indexed here comes from `make([]byte, n)`, so its
  capacity equals its length and the bound of `s[lo:hi]` is `len(s)`.
-/

namespace MysqlSlave

/-! ## Bytes, errors, faults -/

/-- One Go `byte`. -/
abbrev Byte := Fin 256

/-- The conversion `byte(n)` of a non-negative `int`. -/
def toByte (n : Nat) : Byte := ⟨n % 256, Nat.mod_lt n (by decide)⟩

/-- The bytes of a source string literal (ASCII only in this program). -/
def strBytes (s : String) : List Byte := s.toList.map (fun c => toByte c.toNat)

/-- The error values the program can return.  The constructors of
`newError` stand for the formatted messages:
* `unsupportedVersion v` is "supported handshake version `v` only",
* `unsupportedAuthPlugin` is "supported auth plugin `mysql_native_password` only",
* `dataLength n` is "data length != n",
* `handshakeFailed c m` is "handshake error, code:c message:m";
`eof` is `io.EOF` and `transport k` any other failure of the connection. -/
inductive GoError where
  | eof
  | transport (k : Nat)
  | dataLength (n : Nat)
  | unsupportedVersion (v : Nat)
  | unsupportedAuthPlugin
  | handshakeFailed (code : Nat) (message : List Byte)
  deriving DecidableEq, Repr

/-- How a pure step can stop early: a run-time panic of an out-of-range
slice expression, or a returned error. -/
inductive Fault where
  | panic
  | error (e : GoError)
  deriving DecidableEq, Repr

deriving instance DecidableEq for Except

/-! ## Constants of `protocol.go` -/

def packetHeaderLen : Nat := 4
def protocolVersionLen : Nat := 1
def connectionIdLen : Nat := 4
def authPluginDataPart1Len : Nat := 8
def capabilityFlagsLen : Nat := 2
def statusFlagsLen : Nat := 2
def authPluginDataLenLen : Nat := 1
def reservedLen : Nat := 10
def CharsetUTF8 : Nat := 33
def authPluginNameNative : List Byte := strBytes "mysql_native_password"
def clientLongPassword : Nat := 0x00000001
def clientPluginAuth : Nat := 0x00080000
def clientSecureConnection : Nat := 0x00008000
def clientProtocol41 : Nat := 0x00000200

/-! ## Slices -/

/-- The slice expression `data[lo:hi]`; out of range it panics. -/
def slice (data : List Byte) (lo hi : Nat) : Except Fault (List Byte) :=
  if lo ≤ hi ∧ hi ≤ data.length then .ok ((data.drop lo).take (hi - lo))
  else .error .panic

/-- The slice expression `data[lo:]`; out of range it panics. -/
def sliceFrom (data : List Byte) (lo : Nat) : Except Fault (List Byte) :=
  if lo ≤ data.length then .ok (data.drop lo) else .error .panic

/-! ## Codecs -/

/-- The loop of `writeInt`, from index `i` with `k` iterations left:
`data = append(data, byte(n>>(i*8)&0xff))`. -/
def writeIntLoop (n : Nat) : Nat → Nat → List Byte → List Byte
  | _, 0, data => data
  | i, k + 1, data => writeIntLoop n (i + 1) k (data ++ [toByte ((n >>> (i * 8)) &&& 0xff)])

/-- Go `writeInt(data, n, len)`. -/
def writeInt (data : List Byte) (n : Nat) (len : Nat) : List Byte :=
  writeIntLoop n 0 len data

/-- Go `writeString(data, str)`. -/
def writeString (data : List Byte) (str : List Byte) : List Byte :=
  data ++ str

/-- Go `writeStringNul(data, str)`. -/
def writeStringNul (data : List Byte) (str : List Byte) : List Byte :=
  writeString data str ++ [0x00]

/-- The loop of `readInt` at index `i` with accumulator `r`:
`r |= int(data[i]) << (i * 8)`, on 64-bit patterns. -/
def readIntLoop : List Byte → Nat → Nat → Nat
  | [], _, r => r
  | b :: rest, i, r => readIntLoop rest (i + 1) ((r ||| (b.val <<< (i * 8))) % 2 ^ 64)

/-- Go `readInt(data)`. -/
def readInt (data : List Byte) : Nat := readIntLoop data 0 0

/-- Go `readString(data)`. -/
def readString (data : List Byte) : List Byte := data

/-- The loop of `readStringNul`: the index of the first zero byte, and
`0` (the initial value of `p`) when there is none. -/
def readStringNulLoop : List Byte → Nat → Nat
  | [], _ => 0
  | b :: rest, i => if b = 0x00 then i else readStringNulLoop rest (i + 1)

/-- Go `readStringNul(data)`: `(string(data[:p]), p + 1)`.  The bound `p`
is `0` or an index into `data`, so `data[:p]` is always in range. -/
def readStringNul (data : List Byte) : List Byte × Nat :=
  let p := readStringNulLoop data 0
  (data.take p, p + 1)

/-! ## Credential scramble (`Handshake`, lines 109-112) -/

/-- A Go `[20]byte`, the result type of `sha1.Sum`. -/
abbrev Sum20 := Fin 20 → Byte

/-- The slice `a[:]` of a `[20]byte`. -/
def Sum20.bytes (a : Sum20) : List Byte := List.ofFn a

/-- Go `xor(a, b)`: `data := make([]byte, 20)`, then `data[i] = a[i] ^ b[i]`
for `i` over the range of `a`. -/
def xor (a b : Sum20) : List Byte :=
  (List.finRange 20).foldl (fun data i => data.set i.val (a i ^^^ b i)) (List.replicate 20 0)

/-- Go `concatArray(data, a)`: `data = append(data, a[i])` for `i` over
the range of `a`. -/
def concatArray (data : List Byte) (a : Sum20) : List Byte :=
  (List.finRange 20).foldl (fun data i => data ++ [a i]) data

/-- Lines 110-112 of `Handshake`: the auth-response computed from the
password and the two parts of the server's auth-plugin data.  `sha1` is
`crypto/sha1.Sum`, a parameter of the embedding.  The slice `[0:20]` is
bounded here by the length of the concatenation; after a successful parse
that length is at least 21, so the bound is never reached. -/
def authResponse (sha1 : List Byte → Sum20) (password : List Byte)
    (authPluginDataPart1 authPluginDataPart2 : List Byte) : Except Fault (List Byte) := do
  let passwordSha1 := sha1 password
  let randomData ← slice (authPluginDataPart1 ++ authPluginDataPart2) 0 20
  pure (xor passwordSha1 (sha1 (concatArray randomData (sha1 passwordSha1.bytes))))

/-- The scramble as the specification words it: `stage1 = SHA1(password)`,
`stage2 = SHA1(stage1)`, `stage3 = SHA1(seed20 ‖ stage2)`, and the result
is the byte-wise XOR of `stage1` and `stage3`. -/
def specScramble (sha1 : List Byte → Sum20) (password seed20 : List Byte) : List Byte :=
  let stage1 := sha1 password
  let stage2 := sha1 (List.ofFn stage1)
  let stage3 := sha1 (seed20 ++ List.ofFn stage2)
  List.ofFn (fun i => stage1 i ^^^ stage3 i)

/-! ## Response builder (`Handshake`, lines 96-125) -/

/-- Lines 98-108 and 113-118 of `Handshake`: the HandshakeResponse41
payload for a user name and an already computed auth-response. -/
def responsePayload (username authResponse : List Byte) : List Byte :=
  let response : List Byte := []
  let response := writeInt response
    (clientProtocol41 ||| clientLongPassword ||| clientSecureConnection ||| clientPluginAuth) 4
  let response := writeInt response 0xffff 4
  let response := writeInt response CharsetUTF8 1
  let response := writeInt response 0x00 23
  let response := writeStringNul response username
  let response := writeInt response authResponse.length 1
  let response := writeString response authResponse
  let response := writeStringNul response authPluginNameNative
  response

/-- Lines 121-125 of `Handshake`: the packet header of the response. -/
def responseHeader (response : List Byte) : List Byte :=
  let header : List Byte := []
  let header := writeInt header response.length 3
  let header := writeInt header 0x01 1
  header

/-! ## Handshake parser and capability gates (`Handshake`, lines 44-94) -/

/-- The local variables of `Handshake` once line 67 has run. -/
structure FlagsStage where
  serverVersion : List Byte
  connectionId : Nat
  authPluginDataPart1 : List Byte
  capabilityFlags : Nat
  offset : Nat
  deriving DecidableEq, Repr

/-- The local variables of `Handshake` once line 94 has run. -/
structure HandshakeV10 where
  serverVersion : List Byte
  connectionId : Nat
  authPluginDataPart1 : List Byte
  capabilityFlags : Nat
  authPluginDataLen : Nat
  authPluginDataPart2 : List Byte
  authPluginName : List Byte
  offset : Nat
  deriving DecidableEq, Repr

/-- Lines 44-67 of `Handshake`: the protocol version with its check, the
server version, the connection id, the first part of the auth-plugin
data, and the capability flags assembled from their two halves. -/
def parseFlags (payload : List Byte) : Except Fault FlagsStage := do
  let offset := 0
  let protocolVersion := readInt (← slice payload offset (offset + protocolVersionLen))
  if protocolVersion ≠ 10 then
    .error (.error (.unsupportedVersion protocolVersion))
  else do
    let offset := offset + protocolVersionLen
    let (serverVersion, serverVersionLen) := readStringNul (← sliceFrom payload offset)
    let offset := offset + serverVersionLen
    let connectionId := readInt (← slice payload offset (offset + connectionIdLen))
    let offset := offset + connectionIdLen
    let authPluginDataPart1 := readString (← slice payload offset (offset + authPluginDataPart1Len))
    let offset := offset + authPluginDataPart1Len
    -- skip filler
    let offset := offset + 1
    let capabilityFlags := readInt (← slice payload offset (offset + capabilityFlagsLen))
    let offset := offset + capabilityFlagsLen
    -- skip character set
    let offset := offset + 1
    -- skip status flags
    let offset := offset + statusFlagsLen
    let capabilityFlags :=
      (readInt (← slice payload offset (offset + capabilityFlagsLen)) <<< 16) ||| capabilityFlags
    let offset := offset + capabilityFlagsLen
    pure { serverVersion, connectionId, authPluginDataPart1, capabilityFlags, offset }

/-- Lines 68-77 of `Handshake`: the auth-plugin-data length when
`clientPluginAuth` is set (else one byte skipped and the length left at
`0`), then the ten reserved bytes skipped.  Returns the length and the
offset. -/
def parseAuthPluginDataLen (payload : List Byte) (st : FlagsStage) : Except Fault (Nat × Nat) := do
  let offset := st.offset
  let (authPluginDataLen, offset) ←
    (if st.capabilityFlags &&& clientPluginAuth > 0 then do
      let authPluginDataLen := readInt (← slice payload offset (offset + authPluginDataLenLen))
      pure (authPluginDataLen, offset + authPluginDataLenLen)
    else
      pure (0, offset + 1) : Except Fault (Nat × Nat))
  let offset := offset + reservedLen
  pure (authPluginDataLen, offset)

/-- Lines 78-94 of `Handshake`: the secure-connection gate, the second
part of the auth-plugin data, the plugin-auth gate, and the plugin name
with its check.  The subtraction `authPluginDataLen - 8` is truncated at
`0` here and can be negative in Go; the comparison with `13` and the
value taken when it is larger are the same. -/
def parseAuthPlugin (payload : List Byte) (st : FlagsStage) (authPluginDataLen offset : Nat) :
    Except Fault HandshakeV10 :=
  if st.capabilityFlags &&& clientSecureConnection = 0 then
    .error (.error .unsupportedAuthPlugin)
  else do
    let part2Len := 13
    let part2Len := if authPluginDataLen - 8 > part2Len then authPluginDataLen - 8 else part2Len
    let authPluginDataPart2 := readString (← slice payload offset (offset + part2Len))
    let offset := offset + part2Len
    if st.capabilityFlags &&& clientPluginAuth = 0 then
      .error (.error .unsupportedAuthPlugin)
    else do
      let (authPluginName, authPluginNameLen) := readStringNul (← sliceFrom payload offset)
      let offset := offset + authPluginNameLen
      if authPluginName ≠ authPluginNameNative then
        .error (.error .unsupportedAuthPlugin)
      else
        pure { serverVersion := st.serverVersion, connectionId := st.connectionId,
               authPluginDataPart1 := st.authPluginDataPart1,
               capabilityFlags := st.capabilityFlags, authPluginDataLen,
               authPluginDataPart2, authPluginName, offset }

/-- Lines 44-94 of `Handshake`: the whole parse of the server's
handshake payload, with its three checks. -/
def parseHandshake (payload : List Byte) : Except Fault HandshakeV10 := do
  let st ← parseFlags payload
  let (authPluginDataLen, offset) ← parseAuthPluginDataLen payload st
  parseAuthPlugin payload st authPluginDataLen offset

/-- Lines 44-118 of `Handshake`: from the handshake payload to the
response payload. -/
def handshakeResponse (sha1 : List Byte → Sum20) (username password payload : List Byte) :
    Except Fault (List Byte) := do
  let hs ← parseHandshake payload
  let auth ← authResponse sha1 password hs.authPluginDataPart1 hs.authPluginDataPart2
  pure (responsePayload username auth)

/-! ## Reply parser (`packet.go`) -/

/-- Go `ResponsePacket`. -/
structure ResponsePacket where
  header : Nat
  errorCode : Nat
  errorMessage : List Byte
  deriving DecidableEq, Repr

/-- Go `isOkResponsePacket(h)`. -/
def isOkResponsePacket (h : Nat) : Bool := h == 0x00 || h == 0xfe

/-- Go `(*ResponsePacket).Ok()`. -/
def ResponsePacket.Ok (s : ResponsePacket) : Bool := isOkResponsePacket s.header

/-- Go `(*ResponsePacket).ErrorCode()`. -/
def ResponsePacket.ErrorCode (s : ResponsePacket) : Nat := s.errorCode

/-- Go `(*ResponsePacket).ErrorMessage()`. -/
def ResponsePacket.ErrorMessage (s : ResponsePacket) : List Byte := s.errorMessage

/-- Go `ParseResponsePacket(data)`; the fields of `r` start at their zero
values. -/
def ParseResponsePacket (data : List Byte) : Except Fault ResponsePacket := do
  let r : ResponsePacket := { header := 0, errorCode := 0, errorMessage := [] }
  let offset := 0
  let r := { r with header := readInt (← slice data offset (offset + 1)) }
  let offset := offset + 1
  if isOkResponsePacket r.header then
    pure r
  else do
    let r := { r with errorCode := readInt (← slice data offset (offset + 2)) }
    let offset := offset + 2
    -- skip 6 bytes
    let offset := offset + 6
    let r := { r with errorMessage := readString (← sliceFrom data offset) }
    pure r

/-! ## The connection and the buffered reader

`net.TCPConn` is a transport that hands over what has arrived: each
`Read` takes the next event, a run of bytes (of which it delivers as many
as fit into the caller's buffer, leaving the rest for the next `Read`) or
a failure; with no event left the stream has ended and `Read` returns
`io.EOF`.  `bufio.Reader` is the standard library's reader with its
4096-byte buffer. -/

/-- What the transport delivers to one `Read`. -/
inductive Event where
  | data (bytes : List Byte)
  | fail (e : GoError)
  deriving DecidableEq, Repr

/-- The connection: the events still to be read, the bytes written so
far, and an optional write failure `(k, e)`: after `k` more bytes a
`Write` fails with `e`. -/
structure Conn where
  incoming : List Event
  written : List Byte
  writeFault : Option (Nat × GoError)
  deriving DecidableEq, Repr

/-- One `Read` of the connection into a buffer of `m` bytes: the bytes
stored, the error, and the events left. -/
def connRead (rd : List Event) (m : Nat) : (List Byte × Option GoError) × List Event :=
  match rd with
  | [] => (([], some .eof), [])
  | .fail e :: rest => (([], some e), rest)
  | .data bytes :: rest =>
    if bytes.length ≤ m then ((bytes, none), rest)
    else ((bytes.take m, none), .data (bytes.drop m) :: rest)

/-- One `Write` of the connection: all of `p` is written, or the bytes
up to the write failure. -/
def connWrite (c : Conn) (p : List Byte) : Option GoError × Conn :=
  match c.writeFault with
  | none => (none, { c with written := c.written ++ p })
  | some (k, e) =>
    if p.length ≤ k then
      (none, { c with written := c.written ++ p, writeFault := some (k - p.length, e) })
    else
      (some e, { c with written := c.written ++ p.take k, writeFault := some (0, e) })

/-- The size of the buffer of `bufio.NewReader` and `bufio.NewWriter`. -/
def defaultBufSize : Nat := 4096

/-- The state of a `bufio.Reader`: the unread part `buf[r:w]` of its
buffer, its pending error, and the underlying connection's events. -/
structure Reader where
  buf : List Byte
  err : Option GoError
  rd : List Event
  deriving DecidableEq, Repr

/-- Go `bufio.NewReader(conn)`. -/
def NewReader (conn : Conn) : Reader := { buf := [], err := none, rd := conn.incoming }

/-- The method `readErr` of `bufio.Reader`: returns the pending error and
clears it. -/
def Reader.readErr (b : Reader) : Option GoError × Reader := (b.err, { b with err := none })

/-- The method `Read(p)` of `bufio.Reader` for `len(p) = n`: the bytes
stored at the front of `p`, the error, and the new state.  It reads from
the connection at most once, and only when its buffer is empty. -/
def Reader.Read (b : Reader) (n : Nat) : (List Byte × Option GoError) × Reader :=
  if n = 0 then
    if b.buf.length > 0 then (([], none), b)
    else
      let (e, b) := b.readErr
      (([], e), b)
  else if b.buf.length = 0 then
    if b.err ≠ none then
      let (e, b) := b.readErr
      (([], e), b)
    else if n ≥ defaultBufSize then
      -- large read, empty buffer: read directly into p
      let ((bytes, e), rd) := connRead b.rd n
      let b := { b with rd := rd, err := e }
      let (e, b) := b.readErr
      ((bytes, e), b)
    else
      -- one read into the buffer
      let ((bytes, e), rd) := connRead b.rd defaultBufSize
      let b := { b with rd := rd, err := e }
      if bytes.length = 0 then
        let (e, b) := b.readErr
        (([], e), b)
      else
        ((bytes.take n, none), { b with buf := bytes.drop n })
  else
    ((b.buf.take n, none), { b with buf := b.buf.drop n })

/-- Go `readData(reader, len)`: one `Read` into `make([]byte, len)`; the
result of a short read is the data-length error. -/
def readData (reader : Reader) (len : Nat) : Except GoError (List Byte) × Reader :=
  let ((data, err), reader) := reader.Read len
  match err with
  | some err => (.error err, reader)
  | none =>
    if data.length ≠ len then (.error (.dataLength len), reader)
    else (.ok data, reader)

/-- Go `readHeader(reader)`: `(payloadLength, sequenceId, err)`. -/
def readHeader (reader : Reader) : (Nat × Nat × Option GoError) × Reader :=
  match readData reader packetHeaderLen with
  | (.error err, reader) => ((0, 0, some err), reader)
  | (.ok header, reader) => ((readInt (header.take 3), readInt (header.drop 3), none), reader)

/-- Go `readPayload(reader, payloadLen)`. -/
def readPayload (reader : Reader) (payloadLen : Nat) : Except GoError (List Byte) × Reader :=
  readData reader payloadLen

/-- The calls `writer.Write(p)` and `writer.Flush()` on a fresh
`bufio.NewWriter(conn)`: a `p` longer than the buffer goes to the
connection in `Write`, a shorter one is buffered and goes out in `Flush`;
`Handshake` returns the error of either call. -/
def writeAndFlush (conn : Conn) (p : List Byte) : Option GoError × Conn :=
  if p.length > defaultBufSize then
    -- Write passes p on; Flush finds the buffer empty
    connWrite conn p
  else if p.length = 0 then
    -- Flush finds the buffer empty
    (none, conn)
  else
    -- Write buffers p; Flush passes it on
    connWrite conn p

/-! ## `Handshake` -/

/-- How a call of `Handshake` ends: it returns its `error` (`nil` is
`none`) or it panics. -/
inductive Outcome where
  | returned (err : Option GoError)
  | panicked
  deriving DecidableEq, Repr

/-- The outcome of `Handshake` for a fault of one of its pure steps. -/
def Fault.outcome : Fault → Outcome
  | .panic => .panicked
  | .error e => .returned (some e)

/-- Go `Handshake(conn, username, password)`: the outcome and the
connection afterwards. -/
def Handshake (sha1 : List Byte → Sum20) (conn : Conn) (username password : List Byte) :
    Outcome × Conn :=
  let reader := NewReader conn
  match readHeader reader with
  | ((_, _, some err), reader) => (.returned (some err), { conn with incoming := reader.rd })
  | ((payloadLength, _, none), reader) =>
    match readPayload reader payloadLength with
    | (.error err, reader) => (.returned (some err), { conn with incoming := reader.rd })
    | (.ok payload, reader) =>
      match handshakeResponse sha1 username password payload with
      | .error .panic => (.panicked, { conn with incoming := reader.rd })
      | .error (.error err) => (.returned (some err), { conn with incoming := reader.rd })
      | .ok response =>
        let header := responseHeader response
        -- send to server
        match writeAndFlush { conn with incoming := reader.rd } (header ++ response) with
        | (some err, conn) => (.returned (some err), conn)
        | (none, conn) =>
          -- the error of this readHeader is overwritten by the next statement
          let ((packetLen, _, _), reader) := readHeader reader
          match readPayload reader packetLen with
          | (.error err, reader) => (.returned (some err), { conn with incoming := reader.rd })
          | (.ok payload, reader) =>
            match ParseResponsePacket payload with
            | .error .panic => (.panicked, { conn with incoming := reader.rd })
            | .error (.error err) => (.returned (some err), { conn with incoming := reader.rd })
            | .ok responsePacket =>
              if !responsePacket.Ok then
                (.returned (some (.handshakeFailed responsePacket.errorCode
                  responsePacket.errorMessage)), { conn with incoming := reader.rd })
              else
                (.returned none, { conn with incoming := reader.rd })

/-! ## Reference reading of a little-endian byte string -/

/-- The number a byte string denotes when read least significant byte
first: `b₀ + 256·b₁ + 256²·b₂ + …`. -/
def littleEndian : List Byte → Nat
  | [] => 0
  | b :: rest => b.val + 256 * littleEndian rest

/-! ## Concrete inputs

The handshake of the specification's end-to-end scenario, and a stand-in
for `sha1.Sum` on which the definitions can be evaluated. -/

/-- A stand-in for `sha1.Sum`: a length-and-sum checksum spread over 20
bytes. -/
def toySha1 (l : List Byte) : Sum20 :=
  fun i => toByte (l.length * 7 + i.val * 3 + l.foldl (fun a b => a + b.val) 0)

/-- The HandshakeV10 payload of the end-to-end scenario: version 10,
server version "5.7.31", connection id 5, auth-plugin data "AAAAAAAA" and
twelve "B" with a zero byte, flags `CLIENT_SECURE_CONNECTION |
CLIENT_PLUGIN_AUTH | CLIENT_PROTOCOL_41`, plugin "mysql_native_password". -/
def e2ePayload : List Byte :=
  [10] ++ strBytes "5.7.31" ++ [0] ++ [5, 0, 0, 0] ++ strBytes "AAAAAAAA" ++ [0] ++
    [0x00, 0x82] ++ [33] ++ [2, 0] ++ [0x08, 0x00] ++ [21] ++ List.replicate 10 0 ++
    (strBytes "BBBBBBBBBBBB" ++ [0]) ++ strBytes "mysql_native_password" ++ [0]

/-- What `Handshake` parses out of `e2ePayload`. -/
def e2eParsed : HandshakeV10 :=
  { serverVersion := strBytes "5.7.31", connectionId := 5,
    authPluginDataPart1 := strBytes "AAAAAAAA", capabilityFlags := 0x88200,
    authPluginDataLen := 21, authPluginDataPart2 := strBytes "BBBBBBBBBBBB" ++ [0],
    authPluginName := strBytes "mysql_native_password", offset := 74 }

/-- A payload one byte longer than what the reader's buffer keeps next
to a packet header. -/
def overlongPayload : List Byte := List.replicate 4093 0

/-- A connection on which the whole frame of `overlongPayload`, with
sequence id 0, arrives at once. -/
def overlongConn : Conn :=
  { incoming := [.data (writeInt (writeInt [] overlongPayload.length 3) 0 1 ++ overlongPayload)],
    written := [], writeFault := none }

/-- A connection on which two bytes arrive one at a time. -/
def splitConn : Conn :=
  { incoming := [.data [1], .data [2]], written := [], writeFault := none }

/-- A connection on which the frame of "hello" with sequence id 7 arrives
together with two bytes of what follows. -/
def helloConn : Conn :=
  { incoming := [.data (writeInt (writeInt [] (strBytes "hello").length 3) 7 1 ++
      strBytes "hello" ++ [9, 9]), .data [1]],
    written := [], writeFault := none }

/-- A connection on which one packet with the given payload and sequence
id 0 arrives at once, and nothing after it. -/
def packetConn (payload : List Byte) : Conn :=
  { incoming := [.data (writeInt (writeInt [] payload.length 3) 0 1 ++ payload)],
    written := [], writeFault := none }

/-- A version-10 handshake payload that ends with the upper flag bytes:
its flags are `CLIENT_PLUGIN_AUTH | CLIENT_PROTOCOL_41`, without
`CLIENT_SECURE_CONNECTION`. -/
def endsAfterFlags : List Byte :=
  [10] ++ strBytes "5.7.31" ++ [0] ++ [5, 0, 0, 0] ++ strBytes "AAAAAAAA" ++ [0] ++
    [0x00, 0x02] ++ [33] ++ [2, 0] ++ [0x08, 0x00]

/-- A complete version-10 handshake payload without
`CLIENT_SECURE_CONNECTION`. -/
def insecurePayload : List Byte :=
  [10] ++ strBytes "5.7.31" ++ [0] ++ [5, 0, 0, 0] ++ strBytes "AAAAAAAA" ++ [0] ++
    [0x00, 0x02] ++ [33] ++ [2, 0] ++ [0x08, 0x00] ++ [21] ++ List.replicate 10 0 ++
    (strBytes "BBBBBBBBBBBB" ++ [0]) ++ strBytes "mysql_native_password" ++ [0]

/-- A version-10 handshake payload that ends with the ten reserved bytes:
its flags are `CLIENT_SECURE_CONNECTION | CLIENT_PROTOCOL_41`, without
`CLIENT_PLUGIN_AUTH`. -/
def endsAfterReserved : List Byte :=
  [10] ++ strBytes "5.7.31" ++ [0] ++ [5, 0, 0, 0] ++ strBytes "AAAAAAAA" ++ [0] ++
    [0x00, 0x82] ++ [33] ++ [2, 0] ++ [0x00, 0x00] ++ [0] ++ List.replicate 10 0

/-- A complete version-10 handshake payload whose plugin is
"caching_sha2_password". -/
def otherPluginPayload : List Byte :=
  [10] ++ strBytes "8.0.21" ++ [0] ++ [5, 0, 0, 0] ++ strBytes "AAAAAAAA" ++ [0] ++
    [0x00, 0x82] ++ [33] ++ [2, 0] ++ [0x08, 0x00] ++ [21] ++ List.replicate 10 0 ++
    (strBytes "BBBBBBBBBBBB" ++ [0]) ++ strBytes "caching_sha2_password" ++ [0]

/-- A handshake payload of protocol version 9. -/
def version9Payload : List Byte := [9] ++ strBytes "3.23" ++ [0] ++ [5, 0, 0, 0]

/-- The packet with the given payload and sequence id 0, as bytes. -/
def packetBytes (payload : List Byte) : List Byte :=
  writeInt (writeInt [] payload.length 3) 0 1 ++ payload

/-- A connection on which the end-to-end handshake packet arrives and
then the stream ends: the server closes without a reply. -/
def noReplyConn : Conn :=
  { incoming := [.data (packetBytes e2ePayload)], written := [], writeFault := none }

/-- A connection on which the end-to-end handshake packet arrives and the
next read of the transport fails. -/
def failedReplyConn : Conn :=
  { incoming := [.data (packetBytes e2ePayload), .fail (.transport 1)],
    written := [], writeFault := none }

/-- A connection on which the end-to-end handshake packet arrives and
then only two bytes of the reply's header. -/
def shortReplyConn : Conn :=
  { incoming := [.data (packetBytes e2ePayload), .data [7, 0]],
    written := [], writeFault := none }

/-- A version-10 handshake payload with `CLIENT_SECURE_CONNECTION` and
`CLIENT_PLUGIN_AUTH` set and auth-plugin-data length 21, in which only
five bytes follow the ten reserved bytes. -/
def shortPart2Payload : List Byte :=
  [10] ++ strBytes "5.7.31" ++ [0] ++ [5, 0, 0, 0] ++ strBytes "AAAAAAAA" ++ [0] ++
    [0x00, 0x82] ++ [33] ++ [2, 0] ++ [0x08, 0x00] ++ [21] ++ List.replicate 10 0 ++
    strBytes "BBBBB"

/-- A version-10 handshake payload without any zero byte after the
version: the server version is not terminated. -/
def unterminatedPayload : List Byte := [10] ++ List.replicate 21 7

/-! ## Lemmas on the codecs and the scramble -/

theorem writeIntLoop_append (n : Nat) : ∀ (k i : Nat) (data : List Byte),
    writeIntLoop n i k data = data ++ writeIntLoop n i k [] := by
  intro k
  induction k with
  | zero => intro i data; simp [writeIntLoop]
  | succ k ih =>
    intro i data
    rw [writeIntLoop, ih, writeIntLoop, ih (i + 1) ([] ++ _)]
    simp

theorem writeInt_append (data : List Byte) (n k : Nat) :
    writeInt data n k = data ++ writeInt [] n k :=
  writeIntLoop_append n k 0 data

theorem writeIntLoop_length (n : Nat) : ∀ (k i : Nat) (data : List Byte),
    (writeIntLoop n i k data).length = data.length + k := by
  intro k
  induction k with
  | zero => intro i data; simp [writeIntLoop]
  | succ k ih =>
    intro i data
    rw [writeIntLoop, ih]
    simp
    omega

theorem writeInt_length (data : List Byte) (n k : Nat) :
    (writeInt data n k).length = data.length + k :=
  writeIntLoop_length n k 0 data

theorem writeInt_one (data : List Byte) (n : Nat) :
    writeInt data n 1 = data ++ [toByte (n &&& 0xff)] := by
  simp [writeInt, writeIntLoop]

theorem foldl_append_singleton {α β : Type} (f : α → β) (l : List α) (data : List β) :
    l.foldl (fun data i => data ++ [f i]) data = data ++ l.map f := by
  induction l generalizing data with
  | nil => simp
  | cons x l ih => simp [ih]

theorem concatArray_eq (data : List Byte) (a : Sum20) :
    concatArray data a = data ++ List.ofFn a := by
  rw [concatArray, foldl_append_singleton, List.ofFn_eq_map]

theorem xor_loop_length (a b : Sum20) (l : List (Fin 20)) (data : List Byte) :
    (l.foldl (fun data i => data.set i.val (a i ^^^ b i)) data).length = data.length := by
  induction l generalizing data with
  | nil => simp
  | cons x l ih => simp [ih]

theorem xor_loop_getElem? (a b : Sum20) (l : List (Fin 20)) (data : List Byte)
    (hlen : data.length = 20) (j : Fin 20) :
    (l.foldl (fun data i => data.set i.val (a i ^^^ b i)) data)[j.val]? =
      if j ∈ l then some (a j ^^^ b j) else data[j.val]? := by
  induction l generalizing data with
  | nil => simp
  | cons x l ih =>
    rw [List.foldl_cons, ih _ (by simpa using hlen)]
    by_cases hj : j ∈ l
    · simp [hj]
    · by_cases hx : j = x
      · subst hx
        simp [hj, List.getElem?_set, hlen]
      · have hne : x.val ≠ j.val := fun h => hx (Fin.ext h.symm)
        simp [hj, hx, List.getElem?_set, hne]

theorem xor_eq_ofFn (a b : Sum20) : xor a b = List.ofFn (fun i => a i ^^^ b i) := by
  apply List.ext_getElem?
  intro j
  by_cases hj : j < 20
  · have h := xor_loop_getElem? a b (List.finRange 20) (List.replicate 20 0) (by simp) ⟨j, hj⟩
    simp only [List.mem_finRange, if_true] at h
    rw [xor, h, List.getElem?_ofFn, List.ofFnNthVal, dif_pos hj]
  · have h1 : (xor a b).length = 20 := by simp [xor, xor_loop_length]
    rw [List.getElem?_eq_none (by omega), List.getElem?_eq_none (by rw [List.length_ofFn]; omega)]

theorem xor_length (a b : Sum20) : (xor a b).length = 20 := by
  simp [xor, xor_loop_length]

theorem slice_ok {data : List Byte} {lo hi : Nat} {x : List Byte}
    (h : slice data lo hi = .ok x) :
    lo ≤ hi ∧ hi ≤ data.length ∧ x = (data.drop lo).take (hi - lo) := by
  unfold slice at h
  split at h
  · rename_i hc
    simp at h
    exact ⟨hc.1, hc.2, h.symm⟩
  · simp at h

theorem slice_eq_ok {data : List Byte} {lo hi : Nat} (h1 : lo ≤ hi) (h2 : hi ≤ data.length) :
    slice data lo hi = .ok ((data.drop lo).take (hi - lo)) := by
  simp [slice, h1, h2]

theorem slice_ok_length {data : List Byte} {lo hi : Nat} {x : List Byte}
    (h : slice data lo hi = .ok x) : x.length = hi - lo := by
  obtain ⟨h1, h2, h3⟩ := slice_ok h
  subst h3
  simp
  omega

theorem sliceFrom_ok {data : List Byte} {lo : Nat} {x : List Byte}
    (h : sliceFrom data lo = .ok x) : lo ≤ data.length ∧ x = data.drop lo := by
  unfold sliceFrom at h
  split at h
  · rename_i hc
    simp at h
    exact ⟨hc, h.symm⟩
  · simp at h

theorem sliceFrom_eq_ok {data : List Byte} {lo : Nat} (h : lo ≤ data.length) :
    sliceFrom data lo = .ok (data.drop lo) := by
  simp [sliceFrom, h]

/-! ## What a successful parse tells -/

theorem parseFlags_ok {payload : List Byte} {st : FlagsStage}
    (h : parseFlags payload = .ok st) :
    st.authPluginDataPart1.length = 8 ∧ st.offset ≤ payload.length := by
  unfold parseFlags at h
  simp only [bind, Except.bind, pure, Except.pure] at h
  repeat' split at h
  all_goals try (simp at h; done)
  rename_i h1 _ _ h2 _ _ h3 _ _ h4 _ _ h5 _ _ h6
  simp only [Except.ok.injEq] at h
  subst h
  have := slice_ok_length h4
  have := (slice_ok h6).2.1
  simp only [readString, authPluginDataPart1Len, capabilityFlagsLen] at *
  constructor <;> omega

theorem parseAuthPlugin_ok {payload : List Byte} {st : FlagsStage} {len off : Nat}
    {hs : HandshakeV10} (h : parseAuthPlugin payload st len off = .ok hs) :
    hs.serverVersion = st.serverVersion ∧ hs.connectionId = st.connectionId ∧
    hs.authPluginDataPart1 = st.authPluginDataPart1 ∧
    hs.capabilityFlags = st.capabilityFlags ∧ hs.authPluginDataLen = len ∧
    hs.authPluginDataPart2.length = max 13 (len - 8) ∧
    st.capabilityFlags &&& clientSecureConnection ≠ 0 ∧
    st.capabilityFlags &&& clientPluginAuth ≠ 0 ∧
    hs.authPluginName = authPluginNameNative := by
  unfold parseAuthPlugin at h
  simp only [bind, Except.bind, pure, Except.pure] at h
  repeat' split at h
  all_goals try (simp at h; done)
  all_goals
    rename_i hsec _ v2 hp2 hpa _ vn hname hnat hlen
    simp only [Except.ok.injEq] at h
    subst h
    have hl := slice_ok_length hp2
    simp only [hlen, if_true, if_false] at hl
    simp only [ne_eq, Decidable.not_not] at hnat
    refine ⟨rfl, rfl, rfl, rfl, rfl, ?_, hsec, hpa, hnat⟩
    simp only [readString]
    rw [hl]
    omega

theorem parseHandshake_ok {payload : List Byte} {hs : HandshakeV10}
    (h : parseHandshake payload = .ok hs) :
    hs.authPluginDataPart1.length = 8 ∧
    hs.authPluginDataPart2.length = max 13 (hs.authPluginDataLen - 8) ∧
    hs.capabilityFlags &&& clientSecureConnection ≠ 0 ∧
    hs.capabilityFlags &&& clientPluginAuth ≠ 0 ∧
    hs.authPluginName = authPluginNameNative := by
  unfold parseHandshake at h
  simp only [bind, Except.bind] at h
  split at h
  · simp at h
  · rename_i st hst
    split at h
    · simp at h
    · rename_i lo hlo
      obtain ⟨len, off⟩ := lo
      obtain ⟨_, _, h3, h4, h5, h6, h7, h8, h9⟩ := parseAuthPlugin_ok h
      rw [h3, h4, h5]
      exact ⟨(parseFlags_ok hst).1, h6, h7, h8, h9⟩

/-! ## Reading integers and strings back -/

theorem readIntLoop_eq (data : List Byte) : ∀ (i r : Nat), r < 2 ^ (8 * i) →
    i + data.length ≤ 8 → readIntLoop data i r = r + 2 ^ (8 * i) * littleEndian data := by
  induction data with
  | nil => intro i r _ _; simp [readIntLoop, littleEndian]
  | cons b rest ih =>
    intro i r hr hlen
    simp only [List.length_cons] at hlen
    have hb : b.val < 256 := b.isLt
    have hor : r ||| (b.val <<< (i * 8)) = 2 ^ (8 * i) * b.val + r := by
      rw [Nat.shiftLeft_eq, Nat.mul_comm i 8, Nat.mul_comm b.val, Nat.lor_comm]
      exact (Nat.mul_add_lt_is_or hr b.val).symm
    have hpow : 2 ^ (8 * (i + 1)) = 2 ^ (8 * i) * 256 := by
      rw [Nat.mul_add, Nat.pow_add]
    have hlt : 2 ^ (8 * i) * b.val + r < 2 ^ (8 * (i + 1)) := by
      rw [hpow]
      calc 2 ^ (8 * i) * b.val + r < 2 ^ (8 * i) * b.val + 2 ^ (8 * i) := by omega
        _ = 2 ^ (8 * i) * (b.val + 1) := by rw [Nat.mul_add, Nat.mul_one]
        _ ≤ 2 ^ (8 * i) * 256 := Nat.mul_le_mul_left _ (by omega)
    have hle : 2 ^ (8 * (i + 1)) ≤ 2 ^ 64 :=
      Nat.pow_le_pow_right (by decide) (by omega)
    rw [readIntLoop, hor, Nat.mod_eq_of_lt (Nat.lt_of_lt_of_le hlt hle),
      ih (i + 1) _ hlt (by omega), hpow, littleEndian]
    rw [Nat.mul_add, Nat.mul_assoc]
    omega

theorem readInt_eq (data : List Byte) (h : data.length ≤ 8) :
    readInt data = littleEndian data := by
  rw [readInt, readIntLoop_eq data 0 0 (by decide) (by omega)]
  simp

theorem readInt_singleton (b : Byte) : readInt [b] = b.val := by
  rw [readInt_eq _ (by simp)]
  simp [littleEndian]

theorem readInt_pair (a b : Byte) : readInt [a, b] = a.val + 256 * b.val := by
  rw [readInt_eq _ (by simp)]
  simp [littleEndian]

theorem littleEndian_lt (data : List Byte) : littleEndian data < 2 ^ (8 * data.length) := by
  induction data with
  | nil => simp [littleEndian]
  | cons b rest ih =>
    have hb : b.val < 256 := b.isLt
    have hpow : 2 ^ (8 * (rest.length + 1)) = 256 * 2 ^ (8 * rest.length) := by
      rw [Nat.mul_add, Nat.pow_add, Nat.mul_comm]
    rw [littleEndian, List.length_cons, hpow]
    calc b.val + 256 * littleEndian rest < 256 + 256 * littleEndian rest := by omega
      _ = 256 * (littleEndian rest + 1) := by rw [Nat.mul_add, Nat.mul_one, Nat.add_comm]
      _ ≤ 256 * 2 ^ (8 * rest.length) := Nat.mul_le_mul_left _ ih

theorem readStringNulLoop_terminated (s rest : List Byte) (hs : ∀ b ∈ s, b ≠ 0) :
    ∀ i : Nat, readStringNulLoop (s ++ 0x00 :: rest) i = i + s.length := by
  induction s with
  | nil => intro i; simp [readStringNulLoop]
  | cons b s ih =>
    intro i
    have hb : b ≠ 0 := hs b (List.mem_cons_self _ _)
    have hs' : ∀ c ∈ s, c ≠ 0 := fun c hc => hs c (List.mem_cons_of_mem _ hc)
    rw [List.cons_append, readStringNulLoop, if_neg hb, ih hs' (i + 1), List.length_cons]
    omega

theorem readStringNul_terminated (s rest : List Byte) (hs : ∀ b ∈ s, b ≠ 0) :
    readStringNul (s ++ 0x00 :: rest) = (s, s.length + 1) := by
  unfold readStringNul
  simp only [readStringNulLoop_terminated s rest hs 0, Nat.zero_add]
  rw [List.take_left' rfl]

theorem slice_of_split (data pre mid post : List Byte) (lo hi : Nat)
    (h : data = pre ++ (mid ++ post)) (hlo : lo = pre.length) (hhi : hi = lo + mid.length) :
    slice data lo hi = .ok mid := by
  subst h hlo hhi
  rw [slice_eq_ok (by omega) (by simp only [List.length_append]; omega),
    List.drop_left' rfl, Nat.add_sub_cancel_left, List.take_left' rfl]

theorem sliceFrom_of_split (data pre post : List Byte) (lo : Nat)
    (h : data = pre ++ post) (hlo : lo = pre.length) :
    sliceFrom data lo = .ok post := by
  subst h hlo
  rw [sliceFrom_eq_ok (by simp only [List.length_append]; omega), List.drop_left' rfl]

/-! ## The parser on a well-formed payload -/

theorem parseFlags_wellformed (sv cid part1 : List Byte) (filler : Byte) (lower : List Byte)
    (charset : Byte) (status upper tail : List Byte) (hsv : ∀ b ∈ sv, b ≠ 0)
    (hcid : cid.length = 4) (hp1 : part1.length = 8) (hlo : lower.length = 2)
    (hst : status.length = 2) (hup : upper.length = 2) :
    parseFlags ([10] ++ sv ++ [0x00] ++ cid ++ part1 ++ [filler] ++ lower ++ [charset] ++
        status ++ upper ++ tail) =
      .ok { serverVersion := sv, connectionId := littleEndian cid,
            authPluginDataPart1 := part1,
            capabilityFlags := littleEndian upper <<< 16 ||| littleEndian lower,
            offset := 22 + sv.length } := by
  generalize hp : [10] ++ sv ++ [0x00] ++ cid ++ part1 ++ [filler] ++ lower ++ [charset] ++
        status ++ upper ++ tail = payload
  have h0 : slice payload 0 (0 + protocolVersionLen) = .ok [10] :=
    slice_of_split payload [] [10]
      (sv ++ [0x00] ++ cid ++ part1 ++ [filler] ++ lower ++ [charset] ++ status ++ upper ++ tail)
      _ _ (by subst hp; simp) rfl rfl
  have h1 : sliceFrom payload (0 + protocolVersionLen) = .ok (sv ++ 0x00 ::
      (cid ++ part1 ++ [filler] ++ lower ++ [charset] ++ status ++ upper ++ tail)) :=
    sliceFrom_of_split payload [10] _ _ (by subst hp; simp) rfl
  have h1' := readStringNul_terminated sv
    (cid ++ part1 ++ [filler] ++ lower ++ [charset] ++ status ++ upper ++ tail) hsv
  have h2 : slice payload (0 + protocolVersionLen + (sv.length + 1))
      (0 + protocolVersionLen + (sv.length + 1) + connectionIdLen) = .ok cid :=
    slice_of_split payload ([10] ++ sv ++ [0x00]) cid
      (part1 ++ [filler] ++ lower ++ [charset] ++ status ++ upper ++ tail)
      _ _ (by subst hp; simp) (by simp [protocolVersionLen]; omega)
      (by rw [hcid]; rfl)
  have h3 : slice payload (0 + protocolVersionLen + (sv.length + 1) + connectionIdLen)
      (0 + protocolVersionLen + (sv.length + 1) + connectionIdLen + authPluginDataPart1Len)
      = .ok part1 :=
    slice_of_split payload ([10] ++ sv ++ [0x00] ++ cid) part1
      ([filler] ++ lower ++ [charset] ++ status ++ upper ++ tail)
      _ _ (by subst hp; simp) (by simp [protocolVersionLen, connectionIdLen, hcid]; omega)
      (by rw [hp1]; rfl)
  have h4 : slice payload
      (0 + protocolVersionLen + (sv.length + 1) + connectionIdLen + authPluginDataPart1Len + 1)
      (0 + protocolVersionLen + (sv.length + 1) + connectionIdLen + authPluginDataPart1Len + 1
        + capabilityFlagsLen) = .ok lower :=
    slice_of_split payload ([10] ++ sv ++ [0x00] ++ cid ++ part1 ++ [filler]) lower
      ([charset] ++ status ++ upper ++ tail)
      _ _ (by subst hp; simp)
      (by simp [protocolVersionLen, connectionIdLen, authPluginDataPart1Len, hcid, hp1]; omega)
      (by rw [hlo]; rfl)
  have h5 : slice payload
      (0 + protocolVersionLen + (sv.length + 1) + connectionIdLen + authPluginDataPart1Len + 1
        + capabilityFlagsLen + 1 + statusFlagsLen)
      (0 + protocolVersionLen + (sv.length + 1) + connectionIdLen + authPluginDataPart1Len + 1
        + capabilityFlagsLen + 1 + statusFlagsLen + capabilityFlagsLen) = .ok upper :=
    slice_of_split payload
      ([10] ++ sv ++ [0x00] ++ cid ++ part1 ++ [filler] ++ lower ++ [charset] ++ status) upper
      tail _ _ (by subst hp; simp)
      (by simp [protocolVersionLen, connectionIdLen, authPluginDataPart1Len, capabilityFlagsLen,
            statusFlagsLen, hcid, hp1, hlo, hst]; omega)
      (by rw [hup]; rfl)
  simp only [parseFlags, bind, Except.bind, pure, Except.pure, h0, h1, h1', h2, h3, h4, h5,
    readInt_singleton, readString]
  rw [readInt_eq cid (by omega), readInt_eq lower (by omega), readInt_eq upper (by omega)]
  have h10 : ((10 : Byte) : Nat) = 10 := rfl
  simp only [h10, ne_eq, not_true_eq_false, if_false, protocolVersionLen, connectionIdLen,
    authPluginDataPart1Len, capabilityFlagsLen, statusFlagsLen]
  congr 2
  omega

set_option maxRecDepth 4096 in
theorem authPluginNameNative_no_nul : ∀ b ∈ authPluginNameNative, b ≠ 0 := by
  decide

theorem parseAuthPluginDataLen_wellformed (head : List Byte) (apdl : Byte) (tail : List Byte)
    (st : FlagsStage) (hoff : st.offset = head.length)
    (hpa : st.capabilityFlags &&& clientPluginAuth ≠ 0) :
    parseAuthPluginDataLen (head ++ [apdl] ++ tail) st = .ok (apdl.val, head.length + 11) := by
  have h0 : slice (head ++ [apdl] ++ tail) head.length (head.length + authPluginDataLenLen)
      = .ok [apdl] :=
    slice_of_split _ head [apdl] tail _ _ (by simp) rfl rfl
  have hpos : st.capabilityFlags &&& clientPluginAuth > 0 := Nat.pos_of_ne_zero hpa
  simp only [parseAuthPluginDataLen, bind, Except.bind, pure, Except.pure, hpos, if_true, hoff,
    h0, readInt_singleton, reservedLen]
  rfl

theorem parseAuthPlugin_wellformed (head part2 : List Byte) (st : FlagsStage) (len : Nat)
    (hp2 : part2.length = max 13 (len - 8))
    (hsec : st.capabilityFlags &&& clientSecureConnection ≠ 0)
    (hpa : st.capabilityFlags &&& clientPluginAuth ≠ 0) :
    parseAuthPlugin (head ++ part2 ++ authPluginNameNative ++ [0x00]) st len head.length =
      .ok { serverVersion := st.serverVersion, connectionId := st.connectionId,
            authPluginDataPart1 := st.authPluginDataPart1,
            capabilityFlags := st.capabilityFlags, authPluginDataLen := len,
            authPluginDataPart2 := part2, authPluginName := authPluginNameNative,
            offset := head.length + part2.length + 22 } := by
  have hl : (if len - 8 > 13 then len - 8 else 13) = part2.length := by
    rw [hp2]
    split <;> omega
  have h0 : slice (head ++ part2 ++ authPluginNameNative ++ [0x00]) head.length
      (head.length + part2.length) = .ok part2 :=
    slice_of_split _ head part2 (authPluginNameNative ++ [0x00]) _ _ (by simp) rfl rfl
  have h1 : sliceFrom (head ++ part2 ++ authPluginNameNative ++ [0x00])
      (head.length + part2.length) = .ok (authPluginNameNative ++ 0x00 :: []) :=
    sliceFrom_of_split _ (head ++ part2) _ _ (by simp) (by simp)
  have h1' := readStringNul_terminated authPluginNameNative [] authPluginNameNative_no_nul
  have hn : authPluginNameNative.length = 21 := by decide
  simp only [parseAuthPlugin, bind, Except.bind, pure, Except.pure, hsec, hpa, if_false, hl, h0,
    h1, h1', readString, ne_eq, not_true_eq_false, hn]

/-! ## The buffered reader -/

theorem connRead_data (c : List Byte) (more : List Event) (m : Nat) :
    connRead (.data c :: more) m =
      ((c.take m, none), if c.length ≤ m then more else .data (c.drop m) :: more) := by
  show (if c.length ≤ m then ((c, none), more)
    else ((c.take m, none), Event.data (c.drop m) :: more)) = _
  by_cases h : c.length ≤ m
  · rw [if_pos h, if_pos h, List.take_of_length_le h]
  · rw [if_neg h, if_neg h]

/-- A read of `n > 0` bytes from a reader whose buffer holds something
takes from the buffer only. -/
theorem Reader.Read_buffered (b : Reader) (n : Nat) (hn : 0 < n) (hb : 0 < b.buf.length) :
    b.Read n = ((b.buf.take n, none), { b with buf := b.buf.drop n }) := by
  unfold Reader.Read
  rw [if_neg (by omega), if_neg (by omega)]

/-- A read of no bytes from a reader without a pending error. -/
theorem Reader.Read_zero (b : Reader) (he : b.err = none) : b.Read 0 = (([], none), b) := by
  unfold Reader.Read
  rw [if_pos rfl]
  split
  · rfl
  · cases b
    simp only at he
    subst he
    rfl

/-- A read of `0 < n < 4096` bytes from a reader with an empty buffer
fills the buffer with one read of the connection. -/
theorem Reader.Read_fill (c : List Byte) (more : List Event) (n : Nat) (hn : 0 < n)
    (hn' : n < defaultBufSize) (hc : 0 < c.length) :
    Reader.Read { buf := [], err := none, rd := .data c :: more } n =
      (((c.take defaultBufSize).take n, none),
        { buf := (c.take defaultBufSize).drop n, err := none,
          rd := if c.length ≤ defaultBufSize then more
                else .data (c.drop defaultBufSize) :: more }) := by
  have hd : 0 < defaultBufSize := by decide
  have hlen : ¬ (c.take defaultBufSize).length = 0 := by
    rw [List.length_take]
    omega
  have h0 : ¬ n = 0 := by omega
  have h1 : ¬ n ≥ defaultBufSize := by omega
  simp only [Reader.Read, h0, h1, if_false, List.length_nil, if_true, ne_eq, not_true_eq_false,
    connRead_data, hlen]

/-- A read of `n ≥ 4096` bytes from a reader with an empty buffer goes to
the connection directly. -/
theorem Reader.Read_direct (c : List Byte) (more : List Event) (n : Nat)
    (hn' : defaultBufSize ≤ n) :
    Reader.Read { buf := [], err := none, rd := .data c :: more } n =
      ((c.take n, none),
        { buf := [], err := none,
          rd := if c.length ≤ n then more else .data (c.drop n) :: more }) := by
  have hd : 0 < defaultBufSize := by decide
  have h0 : ¬ n = 0 := by omega
  have h1 : n ≥ defaultBufSize := hn'
  simp only [Reader.Read, h0, h1, if_false, List.length_nil, if_true, ne_eq, not_true_eq_false,
    connRead_data, Reader.readErr]

/-- What `readData` gives from a reader whose buffer holds something (or
for `n = 0`): the first `n` buffered bytes, or the data-length error when
the buffer is shorter; the connection is not read. -/
theorem readData_buffered (b : Reader) (n : Nat) (he : b.err = none)
    (hb : 0 < b.buf.length ∨ n = 0) :
    readData b n =
      if n ≤ b.buf.length then (.ok (b.buf.take n), { b with buf := b.buf.drop n })
      else (.error (.dataLength n), { b with buf := b.buf.drop n }) := by
  by_cases hn : n = 0
  · subst hn
    simp only [readData, Reader.Read_zero b he, Nat.zero_le, if_true, List.take_zero,
      List.drop_zero, List.length_nil, ne_eq, not_true_eq_false, if_false]
  · have hb' : 0 < b.buf.length := by omega
    simp only [readData, Reader.Read_buffered b n (by omega) hb', List.length_take]
    by_cases hle : n ≤ b.buf.length
    · rw [if_neg (by omega), if_pos hle]
    · rw [if_pos (by omega), if_neg hle]

/-- What `readData` gives from a fresh reader when the connection next
delivers the run `c`: the first `n` bytes of `c` if it has that many, and
the data-length error otherwise. -/
theorem readData_fresh (c : List Byte) (more : List Event) (n : Nat) (hn : 0 < n) :
    (readData { buf := [], err := none, rd := .data c :: more } n).1 =
      if n ≤ c.length then .ok (c.take n) else .error (.dataLength n) := by
  have hd : defaultBufSize = 4096 := rfl
  by_cases hbig : defaultBufSize ≤ n
  · simp only [readData, Reader.Read_direct c more n hbig, List.length_take]
    by_cases hle : n ≤ c.length
    · rw [if_neg (by omega), if_pos hle]
    · rw [if_pos (by omega), if_neg hle]
  · by_cases hc : 0 < c.length
    · simp only [readData, Reader.Read_fill c more n hn (by omega) hc, List.length_take]
      by_cases hle : n ≤ c.length
      · rw [if_neg (by omega), if_pos hle, List.take_take, Nat.min_eq_left (by omega)]
      · rw [if_pos (by omega), if_neg hle]
    · have hnil : c = [] := List.eq_nil_of_length_eq_zero (by omega)
      subst hnil
      have : Reader.Read { buf := [], err := none, rd := .data [] :: more } n =
          (([], none), { buf := [], err := none, rd := more }) := by
        have h0 : ¬ n = 0 := by omega
        have h1 : ¬ n ≥ defaultBufSize := hbig
        simp [Reader.Read, h0, h1, connRead_data, Reader.readErr]
      simp only [readData, this, List.length_nil]
      rw [if_pos (by omega), if_neg (by simp; omega)]

/-! ## Writing an integer and reading it back -/

theorem toByte_and_val (x : Nat) : (toByte (x &&& 0xff)).val = x % 256 := by
  have h : x &&& 0xff = x % 256 := Nat.and_pow_two_sub_one_eq_mod x 8
  rw [h]
  show x % 256 % 256 = x % 256
  exact Nat.mod_mod _ _

theorem littleEndian_writeIntLoop (n : Nat) : ∀ (k i : Nat),
    littleEndian (writeIntLoop n i k []) = (n >>> (i * 8)) % 2 ^ (8 * k) := by
  intro k
  induction k with
  | zero => intro i; simp [writeIntLoop, littleEndian, Nat.mod_one]
  | succ k ih =>
    intro i
    rw [writeIntLoop, writeIntLoop_append, List.nil_append, List.singleton_append, littleEndian,
      ih (i + 1), toByte_and_val]
    have hs : n >>> ((i + 1) * 8) = n >>> (i * 8) / 256 := by
      rw [Nat.add_mul, Nat.one_mul, Nat.shiftRight_add, Nat.shiftRight_eq_div_pow _ 8]
    have hp : 2 ^ (8 * (k + 1)) = 256 * 2 ^ (8 * k) := by
      rw [Nat.mul_add, Nat.pow_add, Nat.mul_comm]
    rw [hs, hp, Nat.mod_mul]

theorem readInt_writeInt (n k : Nat) (hk : k ≤ 8) :
    readInt (writeInt [] n k) = n % 2 ^ (8 * k) := by
  rw [readInt_eq _ (by rw [writeInt_length]; simpa using hk), writeInt,
    littleEndian_writeIntLoop]
  simp

/-! ## Deframing -/

/-- The header read of a fresh reader when the connection next delivers
a run that starts with the four header bytes: the header is decoded, and
the buffer keeps what else of the run fits into its 4096 bytes. -/
theorem readHeader_fresh (hdr body : List Byte) (more : List Event) (hh : hdr.length = 4) :
    readHeader { buf := [], err := none, rd := .data (hdr ++ body) :: more } =
      ((readInt (hdr.take 3), readInt (hdr.drop 3), none),
        { buf := body.take 4092, err := none,
          rd := if (hdr ++ body).length ≤ defaultBufSize then more
                else .data ((hdr ++ body).drop defaultBufSize) :: more }) := by
  have hd : defaultBufSize = 4096 := rfl
  have hfill := Reader.Read_fill (hdr ++ body) more packetHeaderLen (by decide) (by decide)
    (by rw [List.length_append]; omega)
  have h1 : ((hdr ++ body).take defaultBufSize).take packetHeaderLen = hdr := by
    rw [List.take_take, Nat.min_eq_left (by decide)]
    have hh' : hdr.length = packetHeaderLen := hh
    exact List.take_left' hh'
  have h2 : ((hdr ++ body).take defaultBufSize).drop packetHeaderLen = body.take 4092 := by
    have hh' : hdr.length = packetHeaderLen := hh
    rw [List.drop_take, List.drop_left' hh']
    rfl
  rw [h1, h2] at hfill
  simp only [readHeader, readData, hfill]
  rw [if_neg (by rw [hh]; decide)]

theorem frameHeader_eq (len seq : Nat) :
    writeInt (writeInt [] len 3) seq 1 = writeInt [] len 3 ++ [toByte (seq &&& 0xff)] :=
  writeInt_one _ _

/-- Deframing a frame that arrives at once: the header decodes to the
length and the sequence id; the payload read gives the payload if it has
at most 4092 bytes and the data-length error if it has more. -/
theorem deframe_frame (P extra : List Byte) (seq : Nat) (more : List Event)
    (hseq : seq < 256) (hP : P.length < 2 ^ 24) (conn : Conn)
    (hconn : conn.incoming =
      .data (writeInt (writeInt [] P.length 3) seq 1 ++ P ++ extra) :: more) :
    (readHeader (NewReader conn)).1 = (P.length, seq, none) ∧
    (readPayload (readHeader (NewReader conn)).2 P.length).1 =
      if P.length ≤ 4092 then .ok P else .error (.dataLength P.length) := by
  have hlen : (writeInt (writeInt [] P.length 3) seq 1).length = 4 := by
    rw [writeInt_length, writeInt_length]
    rfl
  have h3 : (writeInt [] P.length 3).length = 3 := by
    rw [writeInt_length]
    rfl
  have hrd := readHeader_fresh (writeInt (writeInt [] P.length 3) seq 1) (P ++ extra) more hlen
  have htake : (writeInt (writeInt [] P.length 3) seq 1).take 3 = writeInt [] P.length 3 := by
    rw [frameHeader_eq, List.take_left' h3]
  have hdrop : (writeInt (writeInt [] P.length 3) seq 1).drop 3 = [toByte (seq &&& 0xff)] := by
    rw [frameHeader_eq, List.drop_left' h3]
  have hseq' : readInt [toByte (seq &&& 0xff)] = seq := by
    rw [readInt_singleton, toByte_and_val, Nat.mod_eq_of_lt hseq]
  rw [htake, hdrop, readInt_writeInt _ _ (by decide), Nat.mod_eq_of_lt hP, hseq'] at hrd
  have hnew : NewReader conn = Reader.mk [] none
      (.data (writeInt (writeInt [] P.length 3) seq 1 ++ (P ++ extra)) :: more) := by
    rw [NewReader, hconn, List.append_assoc]
  rw [hnew, hrd]
  refine ⟨rfl, ?_⟩
  simp only [readPayload]
  by_cases hle : P.length ≤ 4092
  · rw [readData_buffered _ _ rfl, if_pos hle]
    · simp only [List.length_take, List.length_append]
      rw [if_pos (by omega)]
      simp only [List.take_take]
      rw [Nat.min_eq_left hle, List.take_left' rfl]
    · simp only [List.length_take, List.length_append]
      omega
  · rw [readData_buffered _ _ rfl, if_neg hle]
    · simp only [List.length_take, List.length_append]
      rw [if_neg (by omega)]
    · simp only [List.length_take, List.length_append]
      omega

/-! ## `Handshake` when the parse stops early -/

theorem Handshake_parse_fault (sha1 : List Byte → Sum20) (conn : Conn)
    (username password payload : List Byte) (n s : Nat) (r1 r2 : Reader) (f : Fault)
    (h1 : readHeader (NewReader conn) = ((n, s, none), r1))
    (h2 : readPayload r1 n = (.ok payload, r2))
    (hp : parseHandshake payload = .error f) :
    Handshake sha1 conn username password = (f.outcome, { conn with incoming := r2.rd }) := by
  have hr : handshakeResponse sha1 username password payload = .error f := by
    simp only [handshakeResponse, hp, bind, Except.bind]
  unfold Handshake
  simp only [h1, h2, hr]
  cases f <;> rfl

theorem parseFlags_version (b : Byte) (rest : List Byte) (hb : b ≠ 10) :
    parseFlags (b :: rest) = .error (.error (.unsupportedVersion b.val)) := by
  have h0 : slice (b :: rest) 0 (0 + protocolVersionLen) = .ok [b] :=
    slice_of_split _ [] [b] rest _ _ rfl rfl rfl
  have hv : b.val ≠ 10 := fun h => hb (Fin.ext h)
  simp only [parseFlags, bind, Except.bind, h0, readInt_singleton, hv, ne_eq, not_false_eq_true,
    if_true]

theorem parseHandshake_secure_unset (payload : List Byte) (st : FlagsStage)
    (hst : parseFlags payload = .ok st)
    (hsec : st.capabilityFlags &&& clientSecureConnection = 0) :
    (st.capabilityFlags &&& clientPluginAuth = 0 ∨ st.offset < payload.length →
      parseHandshake payload = .error (.error .unsupportedAuthPlugin)) ∧
    (parseHandshake payload = .error (.error .unsupportedAuthPlugin) ∨
      parseHandshake payload = .error .panic) := by
  have key : ∀ lo : Nat × Nat, parseAuthPluginDataLen payload st = .ok lo →
      parseHandshake payload = .error (.error .unsupportedAuthPlugin) := by
    intro lo hlo
    simp only [parseHandshake, bind, Except.bind, hst, hlo, parseAuthPlugin, hsec, if_true]
  by_cases hpa : st.capabilityFlags &&& clientPluginAuth = 0
  · have hlo : parseAuthPluginDataLen payload st = .ok (0, st.offset + 1 + reservedLen) := by
      simp only [parseAuthPluginDataLen, hpa, bind, Except.bind, pure, Except.pure,
        gt_iff_lt, Nat.lt_irrefl, if_false]
    exact ⟨fun _ => key _ hlo, Or.inl (key _ hlo)⟩
  · have hpos : st.capabilityFlags &&& clientPluginAuth > 0 := Nat.pos_of_ne_zero hpa
    by_cases hroom : st.offset < payload.length
    · have hs : slice payload st.offset (st.offset + authPluginDataLenLen) =
          .ok ((payload.drop st.offset).take (st.offset + authPluginDataLenLen - st.offset)) :=
        slice_eq_ok (by omega) (by simp only [authPluginDataLenLen]; omega)
      have hlo : ∃ lo, parseAuthPluginDataLen payload st = .ok lo := by
        simp only [parseAuthPluginDataLen, hpos, if_true, bind, Except.bind, pure, Except.pure, hs]
        exact ⟨_, rfl⟩
      obtain ⟨lo, hlo⟩ := hlo
      exact ⟨fun _ => key _ hlo, Or.inl (key _ hlo)⟩
    · have hs : slice payload st.offset (st.offset + authPluginDataLenLen) = .error .panic := by
        simp only [slice, authPluginDataLenLen]
        rw [if_neg (by omega)]
      refine ⟨fun h => ?_, Or.inr ?_⟩
      · rcases h with h | h
        · exact absurd h hpa
        · exact absurd h hroom
      · simp only [parseHandshake, bind, Except.bind, hst, parseAuthPluginDataLen, hpos, if_true,
          hs]

theorem parseAuthPlugin_rejects (payload : List Byte) (st : FlagsStage) (len off : Nat)
    (hsec : st.capabilityFlags &&& clientSecureConnection ≠ 0)
    (hroom : off + max 13 (len - 8) ≤ payload.length)
    (hbad : st.capabilityFlags &&& clientPluginAuth = 0 ∨
      (readStringNul (payload.drop (off + max 13 (len - 8)))).1 ≠ authPluginNameNative) :
    parseAuthPlugin payload st len off = .error (.error .unsupportedAuthPlugin) := by
  have hl : (if len - 8 > 13 then len - 8 else 13) = max 13 (len - 8) := by
    split <;> omega
  have h0 : slice payload off (off + max 13 (len - 8)) =
      .ok ((payload.drop off).take (off + max 13 (len - 8) - off)) :=
    slice_eq_ok (by omega) hroom
  have h1 : sliceFrom payload (off + max 13 (len - 8)) =
      .ok (payload.drop (off + max 13 (len - 8))) :=
    sliceFrom_eq_ok hroom
  by_cases hpa : st.capabilityFlags &&& clientPluginAuth = 0
  · simp only [parseAuthPlugin, hsec, if_false, hl, bind, Except.bind, h0, hpa, if_true]
  · have hname : (readStringNul (payload.drop (off + max 13 (len - 8)))).1 ≠
        authPluginNameNative := by
      rcases hbad with h | h
      · exact absurd h hpa
      · exact h
    simp only [parseAuthPlugin, hsec, if_false, hl, bind, Except.bind, h0, hpa, h1, hname,
      ne_eq, not_false_eq_true, if_true]

/-! ## The response payload, byte by byte -/

theorem writeInt_clientFlags :
    writeInt [] (clientProtocol41 ||| clientLongPassword ||| clientSecureConnection |||
      clientPluginAuth) 4 = [0x01, 0x82, 0x08, 0x00] := by
  decide

theorem writeInt_maxPacketSize : writeInt [] 0xffff 4 = [0xff, 0xff, 0x00, 0x00] := by
  decide

theorem writeInt_charset : writeInt [] CharsetUTF8 1 = [33] := by
  decide

theorem writeInt_reserved : writeInt [] 0x00 23 = List.replicate 23 0 := by
  decide

theorem responsePayload_eq (username authResponse : List Byte) :
    responsePayload username authResponse =
      [0x01, 0x82, 0x08, 0x00] ++ [0xff, 0xff, 0x00, 0x00] ++ [33] ++ List.replicate 23 0 ++
        username ++ [0x00] ++ [toByte (authResponse.length &&& 0xff)] ++ authResponse ++
        authPluginNameNative ++ [0x00] := by
  unfold responsePayload
  simp only [writeStringNul, writeString]
  rw [writeInt_one, writeInt_append _ 0x00 23, writeInt_append _ CharsetUTF8 1,
    writeInt_append _ 0xffff 4, writeInt_clientFlags, writeInt_maxPacketSize, writeInt_charset,
    writeInt_reserved]

theorem responsePayload_drop_take (username authResponse : List Byte)
    (h : authResponse.length = 20) :
    ((responsePayload username authResponse).drop (34 + username.length)).take 20 =
      authResponse := by
  have e : responsePayload username authResponse =
      ([0x01, 0x82, 0x08, 0x00] ++ [0xff, 0xff, 0x00, 0x00] ++ [33] ++ List.replicate 23 0 ++
        username ++ [0x00] ++ [toByte (authResponse.length &&& 0xff)]) ++
        (authResponse ++ (authPluginNameNative ++ [0x00])) := by
    rw [responsePayload_eq]
    simp only [List.append_assoc]
  rw [e, List.drop_left', List.take_left' h]
  simp
  omega

theorem authResponse_eq (sha1 : List Byte → Sum20) (password part1 part2 : List Byte)
    (h : 20 ≤ (part1 ++ part2).length) :
    authResponse sha1 password part1 part2 =
      .ok (specScramble sha1 password ((part1 ++ part2).take 20)) := by
  unfold authResponse
  rw [slice_eq_ok (Nat.zero_le _) h]
  simp only [bind, Except.bind, pure, Except.pure, specScramble, xor_eq_ofFn, concatArray_eq,
    Sum20.bytes, List.drop_zero, Nat.sub_zero]

/-- C1: for every password and every handshake payload that passes
parsing and validation, the auth-response that `Handshake` computes and
puts into the response payload (at offset `34 + len(username)`) has
exactly 20 bytes and is the byte-wise XOR of `SHA1(password)` with
`SHA1(seed20 ‖ SHA1(SHA1(password)))`, where `seed20` is the first 20
bytes of `authPluginDataPart1 ‖ authPluginDataPart2`. -/
theorem C1_auth_response_is_scramble (sha1 : List Byte → Sum20)
    (username password payload : List Byte) (hs : HandshakeV10)
    (h : parseHandshake payload = .ok hs) :
    ∃ auth : List Byte,
      authResponse sha1 password hs.authPluginDataPart1 hs.authPluginDataPart2 = .ok auth ∧
      handshakeResponse sha1 username password payload = .ok (responsePayload username auth) ∧
      ((responsePayload username auth).drop (34 + username.length)).take 20 = auth ∧
      auth.length = 20 ∧
      auth = specScramble sha1 password
        ((hs.authPluginDataPart1 ++ hs.authPluginDataPart2).take 20) ∧
      ∀ i : Fin 20, auth[i.val]? = some (sha1 password i ^^^
        sha1 ((hs.authPluginDataPart1 ++ hs.authPluginDataPart2).take 20 ++
          List.ofFn (sha1 (List.ofFn (sha1 password)))) i) := by
  obtain ⟨h1, h2, -, -, -⟩ := parseHandshake_ok h
  have hlen : 20 ≤ (hs.authPluginDataPart1 ++ hs.authPluginDataPart2).length := by
    rw [List.length_append, h1, h2]
    omega
  have hauth := authResponse_eq sha1 password _ _ hlen
  have hl : (specScramble sha1 password
      ((hs.authPluginDataPart1 ++ hs.authPluginDataPart2).take 20)).length = 20 := by
    simp only [specScramble, List.length_ofFn]
  refine ⟨_, hauth, ?_, ?_, hl, rfl, ?_⟩
  · simp only [handshakeResponse, h, hauth, bind, Except.bind, pure, Except.pure]
  · rw [responsePayload_drop_take _ _ hl]
  · intro i
    simp only [specScramble]
    rw [List.getElem?_ofFn, List.ofFnNthVal, dif_pos i.isLt]

theorem C1_auth_response_is_scramble_witness :
    parseHandshake e2ePayload = .ok e2eParsed ∧
    ∃ auth : List Byte,
      authResponse toySha1 (strBytes "slave") e2eParsed.authPluginDataPart1
        e2eParsed.authPluginDataPart2 = .ok auth ∧
      handshakeResponse toySha1 (strBytes "slave") (strBytes "slave") e2ePayload =
        .ok (responsePayload (strBytes "slave") auth) ∧
      ((responsePayload (strBytes "slave") auth).drop (34 + (strBytes "slave").length)).take 20
        = auth ∧
      auth.length = 20 ∧
      auth = specScramble toySha1 (strBytes "slave")
        ((e2eParsed.authPluginDataPart1 ++ e2eParsed.authPluginDataPart2).take 20) ∧
      ∀ i : Fin 20, auth[i.val]? = some (toySha1 (strBytes "slave") i ^^^
        toySha1 ((e2eParsed.authPluginDataPart1 ++ e2eParsed.authPluginDataPart2).take 20 ++
          List.ofFn (toySha1 (List.ofFn (toySha1 (strBytes "slave"))))) i) :=
  ⟨by decide, C1_auth_response_is_scramble toySha1 (strBytes "slave") (strBytes "slave")
    e2ePayload e2eParsed (by decide)⟩

theorem responsePayload_length (username authResponse : List Byte) :
    (responsePayload username authResponse).length =
      56 + username.length + authResponse.length := by
  rw [responsePayload_eq]
  have : authPluginNameNative.length = 21 := by decide
  simp only [List.length_append, List.length_replicate, List.length_cons, List.length_nil, this]
  omega

theorem responseHeader_eq (response : List Byte) :
    responseHeader response = writeInt [] response.length 3 ++ [0x01] := by
  show writeInt (writeInt [] response.length 3) 0x01 1 = _
  rw [writeInt_one]
  rfl

/-- C2: for every user name and every 20-byte auth-response, the response
payload built by `Handshake` is the concatenation of `01 82 08 00` (the
little-endian bytes of `CLIENT_PROTOCOL_41 | CLIENT_LONG_PASSWORD |
CLIENT_SECURE_CONNECTION | CLIENT_PLUGIN_AUTH = 0x00088201`),
`FF FF 00 00`, the byte 33, 23 zero bytes, the user name and a zero byte,
the byte 20, the auth-response, and "mysql_native_password" and a zero
byte; it has `76 + len(username)` bytes, and the header built for it is
its length in three bytes followed by the sequence id 1. -/
theorem C2_response_payload_layout (username auth : List Byte) (h : auth.length = 20) :
    responsePayload username auth =
      [0x01, 0x82, 0x08, 0x00] ++ [0xff, 0xff, 0x00, 0x00] ++ [33] ++ List.replicate 23 0 ++
        (username ++ [0x00]) ++ [20] ++ auth ++ (strBytes "mysql_native_password" ++ [0x00]) ∧
    (clientProtocol41 ||| clientLongPassword ||| clientSecureConnection ||| clientPluginAuth
      = 0x00088201 ∧ writeInt [] 0x00088201 4 = [0x01, 0x82, 0x08, 0x00]) ∧
    (responsePayload username auth).length = 76 + username.length ∧
    responseHeader (responsePayload username auth) =
      writeInt [] (76 + username.length) 3 ++ [0x01] ∧
    readInt ((responseHeader (responsePayload username auth)).drop 3) = 1 := by
  have hlen := responsePayload_length username auth
  rw [h] at hlen
  have hlen' : (responsePayload username auth).length = 76 + username.length := by omega
  have hhdr := responseHeader_eq (responsePayload username auth)
  refine ⟨?_, ⟨by decide, by decide⟩, hlen', ?_, ?_⟩
  · rw [responsePayload_eq, h]
    simp only [List.append_assoc, authPluginNameNative]
    rfl
  · rw [hhdr, hlen']
  · rw [hhdr, List.drop_left' (by rw [writeInt_length]; rfl)]
    decide

theorem C2_response_payload_layout_witness :
    (List.replicate 20 (7 : Byte)).length = 20 ∧
    (responsePayload (strBytes "slave") (List.replicate 20 7) =
      [0x01, 0x82, 0x08, 0x00] ++ [0xff, 0xff, 0x00, 0x00] ++ [33] ++ List.replicate 23 0 ++
        (strBytes "slave" ++ [0x00]) ++ [20] ++ List.replicate 20 7 ++
        (strBytes "mysql_native_password" ++ [0x00]) ∧
    (clientProtocol41 ||| clientLongPassword ||| clientSecureConnection ||| clientPluginAuth
      = 0x00088201 ∧ writeInt [] 0x00088201 4 = [0x01, 0x82, 0x08, 0x00]) ∧
    (responsePayload (strBytes "slave") (List.replicate 20 7)).length =
      76 + (strBytes "slave").length ∧
    responseHeader (responsePayload (strBytes "slave") (List.replicate 20 7)) =
      writeInt [] (76 + (strBytes "slave").length) 3 ++ [0x01] ∧
    readInt ((responseHeader (responsePayload (strBytes "slave")
      (List.replicate 20 7))).drop 3) = 1) :=
  ⟨by decide, C2_response_payload_layout (strBytes "slave") (List.replicate 20 7) (by decide)⟩

/-- C3: on every payload that is the concatenation `[10] ‖ serverVersion ‖
0x00 ‖ connectionId (4 bytes) ‖ part1 (8 bytes) ‖ filler ‖ lower (2 bytes)
‖ charset ‖ status (2 bytes) ‖ upper (2 bytes) ‖ authPluginDataLen ‖
reserved (10 bytes) ‖ part2 (max(13, authPluginDataLen − 8) bytes) ‖
"mysql_native_password" ‖ 0x00`, where the server version has no zero
byte and `upper<<16 | lower` (both read little-endian) has
`CLIENT_SECURE_CONNECTION` and `CLIENT_PLUGIN_AUTH` set, the handshake
parser succeeds and extracts exactly the server version, the connection
id (read little-endian), part1, the capability flags `upper<<16 | lower`,
authPluginDataLen, part2 and the plugin name, having consumed the whole
payload. -/
theorem C3_parse_wellformed_handshake (sv cid part1 : List Byte) (filler : Byte)
    (lower : List Byte) (charset : Byte) (status upper : List Byte) (apdl : Byte)
    (reserved part2 : List Byte) (hsv : ∀ b ∈ sv, b ≠ 0) (hcid : cid.length = 4)
    (hp1 : part1.length = 8) (hlo : lower.length = 2) (hst : status.length = 2)
    (hup : upper.length = 2) (hres : reserved.length = 10)
    (hp2 : part2.length = max 13 (apdl.val - 8))
    (hsec : (littleEndian upper <<< 16 ||| littleEndian lower) &&& clientSecureConnection ≠ 0)
    (hpa : (littleEndian upper <<< 16 ||| littleEndian lower) &&& clientPluginAuth ≠ 0) :
    parseHandshake ([10] ++ sv ++ [0x00] ++ cid ++ part1 ++ [filler] ++ lower ++ [charset] ++
        status ++ upper ++ [apdl] ++ reserved ++ part2 ++ strBytes "mysql_native_password" ++
        [0x00]) =
      .ok { serverVersion := sv, connectionId := littleEndian cid,
            authPluginDataPart1 := part1,
            capabilityFlags := littleEndian upper <<< 16 ||| littleEndian lower,
            authPluginDataLen := apdl.val, authPluginDataPart2 := part2,
            authPluginName := strBytes "mysql_native_password",
            offset := 55 + sv.length + part2.length } := by
  generalize hp : [10] ++ sv ++ [0x00] ++ cid ++ part1 ++ [filler] ++ lower ++ [charset] ++
        status ++ upper ++ [apdl] ++ reserved ++ part2 ++ strBytes "mysql_native_password" ++
        [0x00] = payload
  obtain ⟨st, hst'⟩ : ∃ st : FlagsStage, FlagsStage.mk sv (littleEndian cid) part1
      (littleEndian upper <<< 16 ||| littleEndian lower) (22 + sv.length) = st := ⟨_, rfl⟩
  have hflags : st.capabilityFlags = littleEndian upper <<< 16 ||| littleEndian lower := by
    rw [← hst']
  have hhead : ([10] ++ sv ++ [0x00] ++ cid ++ part1 ++ [filler] ++ lower ++ [charset] ++
      status ++ upper).length = 22 + sv.length := by
    simp only [List.length_append, List.length_cons, List.length_nil, hcid, hp1, hlo, hst, hup]
    omega
  have e1 : parseFlags payload = .ok st := by
    rw [← hp, ← hst']
    have := parseFlags_wellformed sv cid part1 filler lower charset status upper
      ([apdl] ++ reserved ++ part2 ++ strBytes "mysql_native_password" ++ [0x00])
      hsv hcid hp1 hlo hst hup
    simpa only [List.append_assoc] using this
  have e2 : parseAuthPluginDataLen payload st = .ok (apdl.val, 22 + sv.length + 11) := by
    rw [← hp, ← hhead]
    have := parseAuthPluginDataLen_wellformed
      ([10] ++ sv ++ [0x00] ++ cid ++ part1 ++ [filler] ++ lower ++ [charset] ++ status ++ upper)
      apdl (reserved ++ part2 ++ strBytes "mysql_native_password" ++ [0x00]) st
      (by rw [hhead, ← hst']) (by rw [hflags]; exact hpa)
    simpa only [List.append_assoc] using this
  have e3 : parseAuthPlugin payload st apdl.val (22 + sv.length + 11) =
      .ok { serverVersion := st.serverVersion, connectionId := st.connectionId,
            authPluginDataPart1 := st.authPluginDataPart1,
            capabilityFlags := st.capabilityFlags, authPluginDataLen := apdl.val,
            authPluginDataPart2 := part2, authPluginName := authPluginNameNative,
            offset := 22 + sv.length + 11 + part2.length + 22 } := by
    have hhead2 : ([10] ++ sv ++ [0x00] ++ cid ++ part1 ++ [filler] ++ lower ++ [charset] ++
        status ++ upper ++ [apdl] ++ reserved).length = 22 + sv.length + 11 := by
      simp only [List.length_append, List.length_cons, List.length_nil, hcid, hp1, hlo, hst, hup,
        hres]
      omega
    rw [← hp, ← hhead2]
    have := parseAuthPlugin_wellformed
      ([10] ++ sv ++ [0x00] ++ cid ++ part1 ++ [filler] ++ lower ++ [charset] ++ status ++
        upper ++ [apdl] ++ reserved) part2 st apdl.val hp2
      (by rw [hflags]; exact hsec) (by rw [hflags]; exact hpa)
    simpa only [List.append_assoc, authPluginNameNative] using this
  simp only [parseHandshake, bind, Except.bind, e1, e2, e3]
  subst hst'
  simp only [authPluginNameNative, Except.ok.injEq, HandshakeV10.mk.injEq, true_and]
  omega

set_option maxRecDepth 8192 in
theorem C3_parse_wellformed_handshake_witness :
    (∀ b ∈ strBytes "5.7.31", b ≠ 0) ∧
    ((littleEndian [0x08, 0x00] <<< 16 ||| littleEndian [0x00, 0x82]) &&&
      clientSecureConnection ≠ 0) ∧
    ((littleEndian [0x08, 0x00] <<< 16 ||| littleEndian [0x00, 0x82]) &&&
      clientPluginAuth ≠ 0) ∧
    littleEndian [5, 0, 0, 0] = 5 ∧
    parseHandshake ([10] ++ strBytes "5.7.31" ++ [0x00] ++ [5, 0, 0, 0] ++ strBytes "AAAAAAAA" ++
        [0] ++ [0x00, 0x82] ++ [33] ++ [2, 0] ++ [0x08, 0x00] ++ [21] ++ List.replicate 10 0 ++
        (strBytes "BBBBBBBBBBBB" ++ [0]) ++ strBytes "mysql_native_password" ++ [0x00]) =
      .ok { serverVersion := strBytes "5.7.31", connectionId := littleEndian [5, 0, 0, 0],
            authPluginDataPart1 := strBytes "AAAAAAAA",
            capabilityFlags := littleEndian [0x08, 0x00] <<< 16 ||| littleEndian [0x00, 0x82],
            authPluginDataLen := (21 : Byte).val,
            authPluginDataPart2 := strBytes "BBBBBBBBBBBB" ++ [0],
            authPluginName := strBytes "mysql_native_password",
            offset := 55 + (strBytes "5.7.31").length + (strBytes "BBBBBBBBBBBB" ++ [0]).length } :=
  ⟨by decide, by decide, by decide, by decide,
    C3_parse_wellformed_handshake (strBytes "5.7.31") [5, 0, 0, 0] (strBytes "AAAAAAAA") 0
      [0x00, 0x82] 33 [2, 0] [0x08, 0x00] 21 (List.replicate 10 0) (strBytes "BBBBBBBBBBBB" ++ [0])
      (by decide) (by decide) (by decide) (by decide) (by decide) (by decide) (by decide)
      (by decide) (by decide) (by decide)⟩

/-- C4, as stated, fails: the frame of a 4093-byte payload with sequence
id 0 arrives at once; the header decodes to `(4093, 0)`, but the payload
read gets only the 4092 bytes that the reader's 4096-byte buffer holds
after the header, and returns the data-length error. -/
theorem C4_frame_roundtrip_counterexample :
    (readHeader (NewReader overlongConn)).1 = (overlongPayload.length, 0, none) ∧
    overlongPayload.length = 4093 ∧
    (readPayload (readHeader (NewReader overlongConn)).2 overlongPayload.length).1 =
      .error (.dataLength 4093) ∧
    (readPayload (readHeader (NewReader overlongConn)).2 overlongPayload.length).1 ≠
      .ok overlongPayload := by
  have hl : overlongPayload.length = 4093 := List.length_replicate _ _
  have h := deframe_frame overlongPayload [] 0 [] (by decide) (by rw [hl]; decide) overlongConn
    (by rw [List.append_nil]; rfl)
  rw [if_neg (by rw [hl]; decide)] at h
  refine ⟨h.1, hl, ?_, ?_⟩
  · rw [h.2, hl]
  · rw [h.2]
    exact fun hne => nomatch hne

/-- C4, amended: for every payload `P` of at most 4092 bytes and every
sequence id `seq` in 0..255, when the frame `writeInt(len(P), 3) ‖
writeInt(seq, 1) ‖ P` arrives at once (the connection's next delivery
starts with it), `readHeader` yields `(len(P), seq)`, so the decoded
payload length is the byte count of the payload, and `readPayload` of
that length yields exactly `P`. -/
theorem C4_frame_roundtrip_amended (P extra : List Byte) (seq : Nat) (more : List Event)
    (conn : Conn) (hseq : seq < 256) (hP : P.length ≤ 4092)
    (hconn : conn.incoming =
      .data (writeInt (writeInt [] P.length 3) seq 1 ++ P ++ extra) :: more) :
    (readHeader (NewReader conn)).1 = (P.length, seq, none) ∧
    (readPayload (readHeader (NewReader conn)).2 P.length).1 = .ok P := by
  have h := deframe_frame P extra seq more hseq (by omega) conn hconn
  rw [if_pos hP] at h
  exact h

theorem C4_frame_roundtrip_amended_witness :
    (7 < 256 ∧ (strBytes "hello").length ≤ 4092) ∧
    helloConn.incoming = .data (writeInt (writeInt [] (strBytes "hello").length 3) 7 1 ++
      strBytes "hello" ++ [9, 9]) :: [.data [1]] ∧
    (readHeader (NewReader helloConn)).1 = ((strBytes "hello").length, 7, none) ∧
    (readPayload (readHeader (NewReader helloConn)).2 (strBytes "hello").length).1 =
      .ok (strBytes "hello") :=
  ⟨by decide, rfl, C4_frame_roundtrip_amended (strBytes "hello") [9, 9] 7 [.data [1]] helloConn
    (by decide) (by decide) rfl⟩

/-- C5, as stated, fails: a version-10 payload that ends with the upper
flag bytes and has `CLIENT_PLUGIN_AUTH` but not `CLIENT_SECURE_CONNECTION`
in its assembled flags makes `Handshake` read the auth-plugin-data length
out of range (line 70) and panic, before the secure-connection gate; it
does not return the unsupported-auth-plugin error. -/
theorem C5_secure_connection_gate_counterexample :
    (∃ st, parseFlags endsAfterFlags = .ok st ∧
      st.capabilityFlags &&& clientSecureConnection = 0) ∧
    (Handshake toySha1 (packetConn endsAfterFlags) (strBytes "slave") (strBytes "slave")).1 =
      .panicked ∧
    (Handshake toySha1 (packetConn endsAfterFlags) (strBytes "slave") (strBytes "slave")).1 ≠
      .returned (some .unsupportedAuthPlugin) := by
  refine ⟨⟨FlagsStage.mk (strBytes "5.7.31") 5 (strBytes "AAAAAAAA") 0x80200 28, ?_, ?_⟩, ?_, ?_⟩
  all_goals decide

/-- C5, amended: for every handshake payload with protocol version 10 on
which the parser assembles capability flags with
`CLIENT_SECURE_CONNECTION` unset, no response packet is written; and when
`CLIENT_PLUGIN_AUTH` is unset too, or at least one byte follows the upper
flag bytes, `Handshake` fails with the unsupported-auth-plugin error. -/
theorem C5_secure_connection_gate_amended (sha1 : List Byte → Sum20) (conn : Conn)
    (username password payload : List Byte) (n s : Nat) (r1 r2 : Reader) (st : FlagsStage)
    (h1 : readHeader (NewReader conn) = ((n, s, none), r1))
    (h2 : readPayload r1 n = (.ok payload, r2))
    (hst : parseFlags payload = .ok st)
    (hsec : st.capabilityFlags &&& clientSecureConnection = 0) :
    (Handshake sha1 conn username password).2.written = conn.written ∧
    (st.capabilityFlags &&& clientPluginAuth = 0 ∨ st.offset < payload.length →
      Handshake sha1 conn username password =
        (.returned (some .unsupportedAuthPlugin), { conn with incoming := r2.rd })) := by
  obtain ⟨hgate, hcases⟩ := parseHandshake_secure_unset payload st hst hsec
  constructor
  · rcases hcases with h | h
    · rw [Handshake_parse_fault sha1 conn username password payload n s r1 r2 _ h1 h2 h]
    · rw [Handshake_parse_fault sha1 conn username password payload n s r1 r2 _ h1 h2 h]
  · intro hroom
    rw [Handshake_parse_fault sha1 conn username password payload n s r1 r2 _ h1 h2
      (hgate hroom)]
    rfl

set_option maxRecDepth 100000 in
theorem C5_secure_connection_gate_amended_witness :
    (readHeader (NewReader (packetConn insecurePayload)) =
      ((74, 0, none), Reader.mk insecurePayload none []) ∧
     readPayload (Reader.mk insecurePayload none []) 74 =
      (.ok insecurePayload, Reader.mk [] none []) ∧
     parseFlags insecurePayload =
      .ok (FlagsStage.mk (strBytes "5.7.31") 5 (strBytes "AAAAAAAA") 0x80200 28) ∧
     0x80200 &&& clientSecureConnection = 0 ∧ 28 < insecurePayload.length) ∧
    (Handshake toySha1 (packetConn insecurePayload) (strBytes "slave")
      (strBytes "slave")).2.written = (packetConn insecurePayload).written ∧
    Handshake toySha1 (packetConn insecurePayload) (strBytes "slave") (strBytes "slave") =
      (.returned (some .unsupportedAuthPlugin), Conn.mk [] [] none) :=
  ⟨by decide,
    (C5_secure_connection_gate_amended toySha1 (packetConn insecurePayload) (strBytes "slave")
      (strBytes "slave") insecurePayload 74 0 (Reader.mk insecurePayload none [])
      (Reader.mk [] none []) (FlagsStage.mk (strBytes "5.7.31") 5 (strBytes "AAAAAAAA") 0x80200 28)
      (by decide) (by decide) (by decide) (by decide)).1,
    (C5_secure_connection_gate_amended toySha1 (packetConn insecurePayload) (strBytes "slave")
      (strBytes "slave") insecurePayload 74 0 (Reader.mk insecurePayload none [])
      (Reader.mk [] none []) (FlagsStage.mk (strBytes "5.7.31") 5 (strBytes "AAAAAAAA") 0x80200 28)
      (by decide) (by decide) (by decide) (by decide)).2 (Or.inr (by decide))⟩

/-- C6, as stated, fails: a version-10 payload that ends with the ten
reserved bytes and has `CLIENT_SECURE_CONNECTION` but not
`CLIENT_PLUGIN_AUTH` in its flags makes `Handshake` slice the second part
of the auth-plugin data out of range (line 85) and panic, before the
plugin-auth gate; it does not return the unsupported-auth-plugin error. -/
theorem C6_plugin_auth_gate_counterexample :
    (∃ st, parseFlags endsAfterReserved = .ok st ∧
      st.capabilityFlags &&& clientSecureConnection ≠ 0 ∧
      st.capabilityFlags &&& clientPluginAuth = 0) ∧
    (Handshake toySha1 (packetConn endsAfterReserved) (strBytes "slave") (strBytes "slave")).1 =
      .panicked ∧
    (Handshake toySha1 (packetConn endsAfterReserved) (strBytes "slave") (strBytes "slave")).1 ≠
      .returned (some .unsupportedAuthPlugin) := by
  refine ⟨⟨FlagsStage.mk (strBytes "5.7.31") 5 (strBytes "AAAAAAAA") 0x8200 28, ?_, ?_, ?_⟩,
    ?_, ?_⟩
  all_goals decide

/-- C6, amended: for every version-10 handshake payload with
`CLIENT_SECURE_CONNECTION` set in which at least
`max(13, authPluginDataLen − 8)` bytes follow the ten reserved bytes, if
`CLIENT_PLUGIN_AUTH` is unset or the plugin name read after those bytes
differs from "mysql_native_password", `Handshake` fails with the
unsupported-auth-plugin error and writes nothing; and for every payload,
`Handshake` writes a response packet only if the parse succeeded with
both bits set and the plugin name equal to "mysql_native_password". -/
theorem C6_plugin_auth_gate_amended (sha1 : List Byte → Sum20) (conn : Conn)
    (username password payload : List Byte) (n s : Nat) (r1 r2 : Reader)
    (h1 : readHeader (NewReader conn) = ((n, s, none), r1))
    (h2 : readPayload r1 n = (.ok payload, r2)) :
    (∀ (st : FlagsStage) (len off : Nat), parseFlags payload = .ok st →
      parseAuthPluginDataLen payload st = .ok (len, off) →
      st.capabilityFlags &&& clientSecureConnection ≠ 0 →
      off + max 13 (len - 8) ≤ payload.length →
      (st.capabilityFlags &&& clientPluginAuth = 0 ∨
        (readStringNul (payload.drop (off + max 13 (len - 8)))).1 ≠ authPluginNameNative) →
      Handshake sha1 conn username password =
        (.returned (some .unsupportedAuthPlugin), { conn with incoming := r2.rd })) ∧
    ((Handshake sha1 conn username password).2.written ≠ conn.written →
      ∃ hs, parseHandshake payload = .ok hs ∧
        hs.capabilityFlags &&& clientSecureConnection ≠ 0 ∧
        hs.capabilityFlags &&& clientPluginAuth ≠ 0 ∧
        hs.authPluginName = authPluginNameNative) := by
  constructor
  · intro st len off hst hlo hsec hroom hbad
    have hp : parseHandshake payload = .error (.error .unsupportedAuthPlugin) := by
      simp only [parseHandshake, bind, Except.bind, hst, hlo]
      exact parseAuthPlugin_rejects payload st len off hsec hroom hbad
    rw [Handshake_parse_fault sha1 conn username password payload n s r1 r2 _ h1 h2 hp]
    rfl
  · intro hw
    cases hp : parseHandshake payload with
    | error f =>
      rw [Handshake_parse_fault sha1 conn username password payload n s r1 r2 f h1 h2 hp] at hw
      exact absurd rfl hw
    | ok hs =>
      obtain ⟨-, -, h3, h4, h5⟩ := parseHandshake_ok hp
      exact ⟨hs, rfl, h3, h4, h5⟩

set_option maxRecDepth 100000 in
theorem C6_plugin_auth_gate_amended_witness :
    (readHeader (NewReader (packetConn otherPluginPayload)) =
      ((74, 0, none), Reader.mk otherPluginPayload none []) ∧
     readPayload (Reader.mk otherPluginPayload none []) 74 =
      (.ok otherPluginPayload, Reader.mk [] none []) ∧
     parseFlags otherPluginPayload =
      .ok (FlagsStage.mk (strBytes "8.0.21") 5 (strBytes "AAAAAAAA") 0x88200 28) ∧
     parseAuthPluginDataLen otherPluginPayload
      (FlagsStage.mk (strBytes "8.0.21") 5 (strBytes "AAAAAAAA") 0x88200 28) = .ok (21, 39) ∧
     0x88200 &&& clientSecureConnection ≠ 0 ∧
     39 + max 13 (21 - 8) ≤ otherPluginPayload.length ∧
     (readStringNul (otherPluginPayload.drop (39 + max 13 (21 - 8)))).1 ≠
      authPluginNameNative) ∧
    Handshake toySha1 (packetConn otherPluginPayload) (strBytes "slave") (strBytes "slave") =
      (.returned (some .unsupportedAuthPlugin), Conn.mk [] [] none) :=
  ⟨by decide,
    (C6_plugin_auth_gate_amended toySha1 (packetConn otherPluginPayload) (strBytes "slave")
      (strBytes "slave") otherPluginPayload 74 0 (Reader.mk otherPluginPayload none [])
      (Reader.mk [] none []) (by decide) (by decide)).1
      (FlagsStage.mk (strBytes "8.0.21") 5 (strBytes "AAAAAAAA") 0x88200 28) 21 39
      (by decide) (by decide) (by decide) (by decide) (Or.inr (by decide))⟩

/-- C7: for every non-empty handshake payload whose first byte is not 10,
whatever the remaining bytes are, `Handshake` fails with the
unsupported-protocol-version error carrying that byte as the version
number, and writes nothing. -/
theorem C7_unsupported_version (sha1 : List Byte → Sum20) (conn : Conn)
    (username password : List Byte) (b : Byte) (rest : List Byte) (n s : Nat) (r1 r2 : Reader)
    (h1 : readHeader (NewReader conn) = ((n, s, none), r1))
    (h2 : readPayload r1 n = (.ok (b :: rest), r2))
    (hb : b ≠ 10) :
    Handshake sha1 conn username password =
      (.returned (some (.unsupportedVersion b.val)), { conn with incoming := r2.rd }) ∧
    (Handshake sha1 conn username password).2.written = conn.written := by
  have hp : parseHandshake (b :: rest) = .error (.error (.unsupportedVersion b.val)) := by
    simp only [parseHandshake, bind, Except.bind, parseFlags_version b rest hb]
  rw [Handshake_parse_fault sha1 conn username password (b :: rest) n s r1 r2 _ h1 h2 hp]
  exact ⟨rfl, rfl⟩

set_option maxRecDepth 100000 in
theorem C7_unsupported_version_witness :
    (readHeader (NewReader (packetConn version9Payload)) =
      ((10, 0, none), Reader.mk version9Payload none []) ∧
     readPayload (Reader.mk version9Payload none []) 10 =
      (.ok (9 :: (strBytes "3.23" ++ [0] ++ [5, 0, 0, 0])), Reader.mk [] none []) ∧
     (9 : Byte) ≠ 10) ∧
    Handshake toySha1 (packetConn version9Payload) (strBytes "slave") (strBytes "slave") =
      (.returned (some (.unsupportedVersion 9)), Conn.mk [] [] none) ∧
    (Handshake toySha1 (packetConn version9Payload) (strBytes "slave")
      (strBytes "slave")).2.written = [] :=
  ⟨by decide,
    C7_unsupported_version toySha1 (packetConn version9Payload) (strBytes "slave")
      (strBytes "slave") 9 (strBytes "3.23" ++ [0] ++ [5, 0, 0, 0]) 10 0
      (Reader.mk version9Payload none []) (Reader.mk [] none []) (by decide) (by decide)
      (by decide)⟩

/-! ## The reply parser -/

theorem isOkResponsePacket_byte (b : Byte) :
    isOkResponsePacket b.val = true ↔ (b = 0x00 ∨ b = 0xfe) := by
  have h0 : b.val = 0 ↔ b = 0x00 := ⟨fun h => Fin.ext h, fun h => by rw [h]; rfl⟩
  have h1 : b.val = 254 ↔ b = 0xfe := ⟨fun h => Fin.ext h, fun h => by rw [h]; rfl⟩
  simp only [isOkResponsePacket, Bool.or_eq_true, beq_iff_eq, h0, h1]

theorem ParseResponsePacket_ok_header (b : Byte) (rest : List Byte)
    (hb : b = 0x00 ∨ b = 0xfe) :
    ParseResponsePacket (b :: rest) =
      .ok { header := b.val, errorCode := 0, errorMessage := [] } := by
  have h0 : slice (b :: rest) 0 (0 + 1) = .ok [b] :=
    slice_of_split _ [] [b] rest _ _ rfl rfl rfl
  have hok := (isOkResponsePacket_byte b).2 hb
  simp only [ParseResponsePacket, bind, Except.bind, pure, Except.pure, h0, readInt_singleton,
    hok, if_true]

theorem ParseResponsePacket_header (b : Byte) (rest : List Byte) (r : ResponsePacket)
    (h : ParseResponsePacket (b :: rest) = .ok r) : r.header = b.val := by
  have h0 : slice (b :: rest) 0 (0 + 1) = .ok [b] :=
    slice_of_split _ [] [b] rest _ _ rfl rfl rfl
  simp only [ParseResponsePacket, bind, Except.bind, pure, Except.pure, h0,
    readInt_singleton] at h
  split at h
  · simp only [Except.ok.injEq] at h
    rw [← h]
  · split at h
    · simp at h
    · split at h
      · simp at h
      · simp only [Except.ok.injEq] at h
        rw [← h]

/-- C8: for every reply payload of at least 9 bytes (three bytes, six
skipped bytes, and the rest) whose first byte is neither 0x00 nor 0xFE,
`ParseResponsePacket` yields a packet with `Ok() == false`,
`ErrorCode() == payload[1] + 256 * payload[2]` and `ErrorMessage()` equal
to the bytes from offset 9 to the end. -/
theorem C8_parse_error_reply (b0 b1 b2 : Byte) (skip msg : List Byte)
    (hskip : skip.length = 6) (hb : b0 ≠ 0x00 ∧ b0 ≠ 0xfe) :
    ∃ r, ParseResponsePacket (b0 :: b1 :: b2 :: (skip ++ msg)) = .ok r ∧
      r.Ok = false ∧ r.ErrorCode = b1.val + 256 * b2.val ∧ r.ErrorMessage = msg ∧
      r.ErrorMessage = (b0 :: b1 :: b2 :: (skip ++ msg)).drop 9 := by
  have h0 : slice (b0 :: b1 :: b2 :: (skip ++ msg)) 0 (0 + 1) = .ok [b0] :=
    slice_of_split _ [] [b0] (b1 :: b2 :: (skip ++ msg)) _ _ rfl rfl rfl
  have h1 : slice (b0 :: b1 :: b2 :: (skip ++ msg)) (0 + 1) (0 + 1 + 2) = .ok [b1, b2] :=
    slice_of_split _ [b0] [b1, b2] (skip ++ msg) _ _ rfl rfl rfl
  have h2 : sliceFrom (b0 :: b1 :: b2 :: (skip ++ msg)) (0 + 1 + 2 + 6) = .ok msg :=
    sliceFrom_of_split _ (b0 :: b1 :: b2 :: skip) msg _ rfl
      (by simp only [List.length_cons, hskip])
  have hnot : isOkResponsePacket b0.val = false := by
    cases hc : isOkResponsePacket b0.val with
    | false => rfl
    | true =>
      rcases (isOkResponsePacket_byte b0).1 hc with h | h
      · exact absurd h hb.1
      · exact absurd h hb.2
  have hdrop : (b0 :: b1 :: b2 :: (skip ++ msg)).drop 9 = msg := by
    have : b0 :: b1 :: b2 :: (skip ++ msg) = (b0 :: b1 :: b2 :: skip) ++ msg := rfl
    rw [this, List.drop_left' (by simp only [List.length_cons, hskip])]
  refine ⟨{ header := b0.val, errorCode := b1.val + 256 * b2.val, errorMessage := msg },
    ?_, hnot, rfl, rfl, hdrop.symm⟩
  simp only [ParseResponsePacket, bind, Except.bind, pure, Except.pure, h0, h1, h2,
    readInt_singleton, readInt_pair, hnot, readString, Bool.false_eq_true, if_false]

theorem C8_parse_error_reply_witness :
    (([1, 2, 3, 4, 5, 6] : List Byte).length = 6 ∧ ((0xff : Byte) ≠ 0x00 ∧ (0xff : Byte) ≠ 0xfe) ∧
      (0x15 : Byte).val + 256 * (0x04 : Byte).val = 1045) ∧
    ∃ r, ParseResponsePacket (0xff :: 0x15 :: 0x04 :: ([1, 2, 3, 4, 5, 6] ++
        strBytes "Access denied")) = .ok r ∧
      r.Ok = false ∧ r.ErrorCode = (0x15 : Byte).val + 256 * (0x04 : Byte).val ∧
      r.ErrorMessage = strBytes "Access denied" ∧
      r.ErrorMessage = (0xff :: 0x15 :: 0x04 :: ([1, 2, 3, 4, 5, 6] ++
        strBytes "Access denied")).drop 9 :=
  ⟨by decide, C8_parse_error_reply 0xff 0x15 0x04 [1, 2, 3, 4, 5, 6] (strBytes "Access denied")
    (by decide) (by decide)⟩

/-- C9: for every non-empty reply payload, `ParseResponsePacket(payload)`
yields a packet whose `Ok()` is true if and only if `payload[0]` is 0x00
or 0xFE; and whenever `Ok()` is true, `ErrorCode() == 0` and
`ErrorMessage()` is empty, whatever bytes follow the first. -/
theorem C9_parse_ok_reply (b : Byte) (rest : List Byte) :
    ((∃ r, ParseResponsePacket (b :: rest) = .ok r ∧ r.Ok = true) ↔ (b = 0x00 ∨ b = 0xfe)) ∧
    (∀ r, ParseResponsePacket (b :: rest) = .ok r → (r.Ok = true ↔ (b = 0x00 ∨ b = 0xfe))) ∧
    (∀ r, ParseResponsePacket (b :: rest) = .ok r → r.Ok = true →
      r.ErrorCode = 0 ∧ r.ErrorMessage = []) := by
  have hiff : ∀ r, ParseResponsePacket (b :: rest) = .ok r →
      (r.Ok = true ↔ (b = 0x00 ∨ b = 0xfe)) := by
    intro r hr
    rw [ResponsePacket.Ok, ParseResponsePacket_header b rest r hr]
    exact isOkResponsePacket_byte b
  refine ⟨⟨?_, ?_⟩, hiff, ?_⟩
  · rintro ⟨r, hr, hok⟩
    exact (hiff r hr).1 hok
  · intro hb
    exact ⟨_, ParseResponsePacket_ok_header b rest hb, (isOkResponsePacket_byte b).2 hb⟩
  · intro r hr hok
    have hb := (hiff r hr).1 hok
    rw [ParseResponsePacket_ok_header b rest hb] at hr
    simp only [Except.ok.injEq] at hr
    rw [← hr]
    exact ⟨rfl, rfl⟩

theorem C9_parse_ok_reply_witness :
    ParseResponsePacket [0x00] = .ok { header := 0, errorCode := 0, errorMessage := [] } ∧
    ((∃ r, ParseResponsePacket [0x00] = .ok r ∧ r.Ok = true) ↔
      ((0x00 : Byte) = 0x00 ∨ (0x00 : Byte) = 0xfe)) ∧
    (∀ r, ParseResponsePacket [0x00] = .ok r →
      (r.Ok = true ↔ ((0x00 : Byte) = 0x00 ∨ (0x00 : Byte) = 0xfe))) ∧
    (∀ r, ParseResponsePacket [0x00] = .ok r → r.Ok = true →
      r.ErrorCode = 0 ∧ r.ErrorMessage = []) :=
  ⟨by decide, C9_parse_ok_reply 0x00 []⟩

/-- C10, as stated, fails: the stream holds two bytes, which the
transport delivers one at a time; `readPayload(stream, 2)` reads once,
gets one byte, and returns the data-length error although the stream has
not ended (the second byte is still to come). -/
theorem C10_readPayload_counterexample :
    splitConn.incoming = [.data [1], .data [2]] ∧
    readPayload (NewReader splitConn) 2 =
      (.error (.dataLength 2), Reader.mk [] none [.data [2]]) ∧
    (readPayload (NewReader splitConn) 2).1 ≠ .ok [1, 2] := by
  decide

/-- C10, amended: for every `n > 0`, `readPayload(stream, n)` issues one
read.  From a reader with an empty buffer it returns exactly the first
`n` bytes of the transport's next delivery when that holds at least `n`
bytes, and fails with the data-length-mismatch error when it holds fewer,
whatever the stream would deliver afterwards; from a reader whose buffer
holds something it does the same with the buffered bytes and leaves the
transport unread. -/
theorem C10_readPayload_single_read_amended (n : Nat) (hn : 0 < n) :
    (∀ (conn : Conn) (c : List Byte) (more : List Event), conn.incoming = .data c :: more →
      (n ≤ c.length → (readPayload (NewReader conn) n).1 = .ok (c.take n)) ∧
      (c.length < n → (readPayload (NewReader conn) n).1 = .error (.dataLength n))) ∧
    (∀ b : Reader, b.err = none → 0 < b.buf.length →
      (n ≤ b.buf.length →
        readPayload b n = (.ok (b.buf.take n), { b with buf := b.buf.drop n })) ∧
      (b.buf.length < n →
        readPayload b n = (.error (.dataLength n), { b with buf := b.buf.drop n }))) := by
  constructor
  · intro conn c more hconn
    have h := readData_fresh c more n hn
    have hnew : NewReader conn = Reader.mk [] none (.data c :: more) := by
      rw [NewReader, hconn]
    constructor
    · intro hle
      rw [readPayload, hnew, h, if_pos hle]
    · intro hlt
      rw [readPayload, hnew, h, if_neg (by omega)]
  · intro b he hb
    have h := readData_buffered b n he (Or.inl hb)
    constructor
    · intro hle
      rw [readPayload, h, if_pos hle]
    · intro hlt
      rw [readPayload, h, if_neg (by omega)]

theorem C10_readPayload_single_read_amended_witness :
    (0 < 2 ∧ helloConn.incoming = .data ([5, 0, 0, 7] ++ strBytes "hello" ++ [9, 9]) ::
      [.data [1]]) ∧
    (readPayload (NewReader helloConn) 2).1 =
      .ok (([5, 0, 0, 7] ++ strBytes "hello" ++ [9, 9]).take 2) ∧
    readPayload (Reader.mk [1, 2, 3] none [.data [4]]) 2 =
      (.ok (([1, 2, 3] : List Byte).take 2),
        Reader.mk (([1, 2, 3] : List Byte).drop 2) none [.data [4]]) :=
  ⟨by decide,
    ((C10_readPayload_single_read_amended 2 (by decide)).1 helloConn
      ([5, 0, 0, 7] ++ strBytes "hello" ++ [9, 9]) [.data [1]] (by decide)).1 (by decide),
    ((C10_readPayload_single_read_amended 2 (by decide)).2 (Reader.mk [1, 2, 3] none [.data [4]])
      rfl (by decide)).1 (by decide)⟩

/-! ## The scramble seed is in range -/

/-- C12: for every handshake payload that passes parsing and validation,
`authPluginDataPart1` has exactly 8 bytes and `authPluginDataPart2` has
exactly `max(13, authPluginDataLen − 8)`, at least 13, bytes; so their
concatenation has at least 20 bytes, and taking its first 20 bytes as the
scramble seed is in range: the auth-response is computed without a
panic, from a seed of exactly 20 bytes. -/
theorem C12_seed_in_range (sha1 : List Byte → Sum20) (password payload : List Byte)
    (hs : HandshakeV10) (h : parseHandshake payload = .ok hs) :
    hs.authPluginDataPart1.length = 8 ∧
    hs.authPluginDataPart2.length = max 13 (hs.authPluginDataLen - 8) ∧
    13 ≤ hs.authPluginDataPart2.length ∧
    20 ≤ (hs.authPluginDataPart1 ++ hs.authPluginDataPart2).length ∧
    slice (hs.authPluginDataPart1 ++ hs.authPluginDataPart2) 0 20 =
      .ok ((hs.authPluginDataPart1 ++ hs.authPluginDataPart2).take 20) ∧
    ((hs.authPluginDataPart1 ++ hs.authPluginDataPart2).take 20).length = 20 ∧
    authResponse sha1 password hs.authPluginDataPart1 hs.authPluginDataPart2 ≠
      .error .panic := by
  obtain ⟨h1, h2, -, -, -⟩ := parseHandshake_ok h
  have h13 : 13 ≤ hs.authPluginDataPart2.length := by
    rw [h2]
    omega
  have h20 : 20 ≤ (hs.authPluginDataPart1 ++ hs.authPluginDataPart2).length := by
    rw [List.length_append, h1]
    omega
  refine ⟨h1, h2, h13, h20, ?_, ?_, ?_⟩
  · rw [slice_eq_ok (Nat.zero_le _) h20, List.drop_zero, Nat.sub_zero]
  · rw [List.length_take]
    omega
  · rw [authResponse_eq sha1 password _ _ h20]
    exact fun hne => nomatch hne

theorem C12_seed_in_range_witness :
    parseHandshake e2ePayload = .ok e2eParsed ∧
    (e2eParsed.authPluginDataPart1.length = 8 ∧
    e2eParsed.authPluginDataPart2.length = max 13 (e2eParsed.authPluginDataLen - 8) ∧
    13 ≤ e2eParsed.authPluginDataPart2.length ∧
    20 ≤ (e2eParsed.authPluginDataPart1 ++ e2eParsed.authPluginDataPart2).length ∧
    slice (e2eParsed.authPluginDataPart1 ++ e2eParsed.authPluginDataPart2) 0 20 =
      .ok ((e2eParsed.authPluginDataPart1 ++ e2eParsed.authPluginDataPart2).take 20) ∧
    ((e2eParsed.authPluginDataPart1 ++ e2eParsed.authPluginDataPart2).take 20).length = 20 ∧
    authResponse toySha1 (strBytes "slave") e2eParsed.authPluginDataPart1
      e2eParsed.authPluginDataPart2 ≠ .error .panic) :=
  ⟨by decide, C12_seed_in_range toySha1 (strBytes "slave") e2ePayload e2eParsed (by decide)⟩

/-- C13: there is a handshake payload with protocol version 10 and both
`CLIENT_SECURE_CONNECTION` and `CLIENT_PLUGIN_AUTH` set in which fewer
than `max(13, authPluginDataLen − 8)` bytes remain after the ten reserved
bytes; on it the slice of `authPluginDataPart2` (line 85) is out of
range, so the parser panics, and so does `Handshake`: no error is
returned. -/
theorem C13_short_part2_panics :
    shortPart2Payload.head? = some 10 ∧
    parseFlags shortPart2Payload =
      .ok (FlagsStage.mk (strBytes "5.7.31") 5 (strBytes "AAAAAAAA") 0x88200 28) ∧
    0x88200 &&& clientSecureConnection ≠ 0 ∧
    0x88200 &&& clientPluginAuth ≠ 0 ∧
    parseAuthPluginDataLen shortPart2Payload
      (FlagsStage.mk (strBytes "5.7.31") 5 (strBytes "AAAAAAAA") 0x88200 28) = .ok (21, 39) ∧
    shortPart2Payload.length - 39 = 5 ∧
    shortPart2Payload.length - 39 < max 13 (21 - 8) ∧
    slice shortPart2Payload 39 (39 + max 13 (21 - 8)) = .error .panic ∧
    parseHandshake shortPart2Payload = .error .panic ∧
    (∀ e, parseHandshake shortPart2Payload ≠ .error (.error e)) ∧
    (Handshake toySha1 (packetConn shortPart2Payload) (strBytes "slave") (strBytes "slave")).1 =
      .panicked := by
  refine ⟨?_, ?_, ?_, ?_, ?_, ?_, ?_, ?_, ?_, ?_, ?_⟩
  · decide
  · decide
  · decide
  · decide
  · decide
  · decide
  · decide
  · decide
  · decide
  · intro e
    have h : parseHandshake shortPart2Payload = .error .panic := by decide
    rw [h]
    exact fun hne => nomatch hne
  · decide

/-! ## The integer and string codecs round-trip -/

theorem writeIntLoop_eq_map (n : Nat) : ∀ (k i : Nat),
    writeIntLoop n i k [] =
      (List.range k).map (fun j => toByte ((n >>> ((i + j) * 8)) &&& 0xff)) := by
  intro k
  induction k with
  | zero => intro i; rfl
  | succ k ih =>
    intro i
    rw [writeIntLoop, writeIntLoop_append, ih (i + 1), List.range_succ_eq_map, List.map_cons,
      List.map_map, List.nil_append, List.singleton_append, Nat.add_zero]
    congr 1
    apply List.map_congr_left
    intro j _
    simp only [Function.comp_apply, Nat.succ_eq_add_one]
    rw [Nat.add_assoc, Nat.add_comm 1 j]

theorem writeInt_eq_map (data : List Byte) (n k : Nat) :
    writeInt data n k =
      data ++ (List.range k).map (fun i => toByte ((n >>> (i * 8)) &&& 0xff)) := by
  rw [writeInt_append, writeInt, writeIntLoop_eq_map]
  simp only [Nat.zero_add]

/-- C14: for every width `k` with `1 ≤ k ≤ 7` and every `n ≥ 0`,
`writeInt(data, n, k)` appends exactly `k` bytes to `data`, the `i`-th
appended byte being `byte((n >> 8i) & 0xFF)`, least significant first;
`readInt` of those `k` bytes returns `n mod 2^(8k)`, which is `n` itself
when `n < 2^(8k)`. -/
theorem C14_writeInt_readInt_roundtrip (data : List Byte) (n k : Nat)
    (hk1 : 1 ≤ k) (hk7 : k ≤ 7) :
    writeInt data n k =
      data ++ (List.range k).map (fun i => toByte ((n >>> (i * 8)) &&& 0xff)) ∧
    (writeInt data n k).length = data.length + k ∧
    (writeInt data n k).take data.length = data ∧
    (∀ i, i < k → ((writeInt data n k).drop data.length)[i]? =
      some (toByte ((n >>> (i * 8)) &&& 0xff))) ∧
    (∀ i, i < k → ∀ b, ((writeInt data n k).drop data.length)[i]? = some b →
      b.val = (n / 2 ^ (8 * i)) % 256) ∧
    readInt ((writeInt data n k).drop data.length) = n % 2 ^ (8 * k) ∧
    (n < 2 ^ (8 * k) → readInt ((writeInt data n k).drop data.length) = n) := by
  have hmap := writeInt_eq_map data n k
  have hdrop : (writeInt data n k).drop data.length = writeInt [] n k := by
    rw [writeInt_append, List.drop_left' rfl]
  have hget : ∀ i, i < k → ((writeInt data n k).drop data.length)[i]? =
      some (toByte ((n >>> (i * 8)) &&& 0xff)) := by
    intro i hi
    rw [hmap, List.drop_left' rfl, List.getElem?_map, List.getElem?_range hi]
    rfl
  have hread : readInt ((writeInt data n k).drop data.length) = n % 2 ^ (8 * k) := by
    rw [hdrop, readInt_writeInt n k (by omega)]
  refine ⟨hmap, writeInt_length data n k, ?_, hget, ?_, hread, ?_⟩
  · rw [writeInt_append, List.take_left' rfl]
  · intro i hi b hb
    rw [hget i hi] at hb
    simp only [Option.some.injEq] at hb
    rw [← hb, toByte_and_val, Nat.shiftRight_eq_div_pow, Nat.mul_comm i 8]
  · intro hn
    rw [hread, Nat.mod_eq_of_lt hn]

theorem C14_writeInt_readInt_roundtrip_witness :
    ((1 ≤ 3 ∧ 3 ≤ 7) ∧ writeInt [9] 0x030201 3 = [9, 0x01, 0x02, 0x03] ∧
      readInt [0x01, 0x02, 0x03] = 0x030201 ∧ 0x01030201 % 2 ^ (8 * 3) = 0x030201) ∧
    (writeInt [9] 0x01030201 3 =
      ([9] : List Byte) ++ (List.range 3).map (fun i => toByte ((0x01030201 >>> (i * 8)) &&& 0xff)) ∧
    (writeInt [9] 0x01030201 3).length = ([9] : List Byte).length + 3 ∧
    (writeInt [9] 0x01030201 3).take ([9] : List Byte).length = [9] ∧
    (∀ i, i < 3 → ((writeInt [9] 0x01030201 3).drop ([9] : List Byte).length)[i]? =
      some (toByte ((0x01030201 >>> (i * 8)) &&& 0xff))) ∧
    (∀ i, i < 3 → ∀ b, ((writeInt [9] 0x01030201 3).drop ([9] : List Byte).length)[i]? = some b →
      b.val = (0x01030201 / 2 ^ (8 * i)) % 256) ∧
    readInt ((writeInt [9] 0x01030201 3).drop ([9] : List Byte).length) =
      0x01030201 % 2 ^ (8 * 3) ∧
    (0x01030201 < 2 ^ (8 * 3) →
      readInt ((writeInt [9] 0x01030201 3).drop ([9] : List Byte).length) = 0x01030201)) :=
  ⟨by decide, C14_writeInt_readInt_roundtrip [9] 0x01030201 3 (by decide) (by decide)⟩

/-- C15: for every string `s` without a zero byte and every byte sequence
`rest`, `readStringNul(writeStringNul([], s) ‖ rest)` returns
`(s, len(s) + 1)`: the text before the first 0x00, and a consumed count
that points just past the terminator. -/
theorem C15_string_nul_roundtrip (s rest : List Byte) (hs : ∀ b ∈ s, b ≠ 0) :
    readStringNul (writeStringNul [] s ++ rest) = (s, s.length + 1) ∧
    writeStringNul [] s = s ++ [0x00] ∧
    (writeStringNul [] s ++ rest).drop (readStringNul (writeStringNul [] s ++ rest)).2 = rest := by
  have hw : writeStringNul [] s = s ++ [0x00] := by
    simp only [writeStringNul, writeString, List.nil_append]
  have hr : readStringNul (writeStringNul [] s ++ rest) = (s, s.length + 1) := by
    rw [hw, List.append_assoc, List.singleton_append]
    exact readStringNul_terminated s rest hs
  refine ⟨hr, hw, ?_⟩
  rw [hr, hw]
  exact List.drop_left' (by simp only [List.length_append, List.length_cons, List.length_nil])

set_option maxRecDepth 8192 in
theorem C15_string_nul_roundtrip_witness :
    (∀ b ∈ strBytes "5.7.31", b ≠ 0) ∧
    (readStringNul (writeStringNul [] (strBytes "5.7.31") ++ [5, 0, 0, 0]) =
      (strBytes "5.7.31", (strBytes "5.7.31").length + 1) ∧
    writeStringNul [] (strBytes "5.7.31") = strBytes "5.7.31" ++ [0x00] ∧
    (writeStringNul [] (strBytes "5.7.31") ++ [5, 0, 0, 0]).drop
      (readStringNul (writeStringNul [] (strBytes "5.7.31") ++ [5, 0, 0, 0])).2 = [5, 0, 0, 0]) :=
  ⟨by decide, C15_string_nul_roundtrip (strBytes "5.7.31") [5, 0, 0, 0] (by decide)⟩

/-! ## When the reply parser reads out of range -/

theorem ParseResponsePacket_nil : ParseResponsePacket [] = .error .panic := by
  decide

theorem ParseResponsePacket_error_header (b : Byte) (rest : List Byte)
    (hb : isOkResponsePacket b.val = false) :
    ParseResponsePacket (b :: rest) =
      if 9 ≤ (b :: rest).length then
        .ok { header := b.val, errorCode := readInt (((b :: rest).drop 1).take 2),
              errorMessage := (b :: rest).drop 9 }
      else .error .panic := by
  have h0 : slice (b :: rest) 0 (0 + 1) = .ok [b] :=
    slice_of_split _ [] [b] rest _ _ rfl rfl rfl
  by_cases h9 : 9 ≤ (b :: rest).length
  · have h1 : slice (b :: rest) (0 + 1) (0 + 1 + 2) = .ok (((b :: rest).drop 1).take 2) :=
      slice_eq_ok (by omega) (by omega)
    have h2 : sliceFrom (b :: rest) (0 + 1 + 2 + 6) = .ok ((b :: rest).drop 9) :=
      sliceFrom_eq_ok h9
    rw [if_pos h9]
    simp only [ParseResponsePacket, bind, Except.bind, pure, Except.pure, h0, h1, h2,
      readInt_singleton, hb, readString, Bool.false_eq_true, if_false]
  · rw [if_neg h9]
    by_cases h3 : 3 ≤ (b :: rest).length
    · have h1 : slice (b :: rest) (0 + 1) (0 + 1 + 2) = .ok (((b :: rest).drop 1).take 2) :=
        slice_eq_ok (by omega) (by omega)
      have h2 : sliceFrom (b :: rest) (0 + 1 + 2 + 6) = .error .panic := by
        simp only [sliceFrom]
        rw [if_neg (by omega)]
      simp only [ParseResponsePacket, bind, Except.bind, pure, Except.pure, h0, h1, h2,
        readInt_singleton, hb, readString, Bool.false_eq_true, if_false]
    · have h1 : slice (b :: rest) (0 + 1) (0 + 1 + 2) = .error .panic := by
        simp only [slice]
        rw [if_neg (by omega)]
      simp only [ParseResponsePacket, bind, Except.bind, pure, Except.pure, h0, h1,
        readInt_singleton, hb, Bool.false_eq_true, if_false]

/-- C16: `ParseResponsePacket` completes, without an out-of-range slice,
if and only if the payload is non-empty and either its first byte is 0x00
or 0xFE or its length is at least 9; on every other payload (empty, or an
error header followed by fewer than 8 bytes) it panics on a slice that is
out of range. -/
theorem C16_reply_parse_in_range (data : List Byte) :
    ((∃ r, ParseResponsePacket data = .ok r) ↔
      (data ≠ [] ∧ (data.head? = some 0x00 ∨ data.head? = some 0xfe ∨ 9 ≤ data.length))) ∧
    (ParseResponsePacket data = .error .panic ↔
      ¬ (data ≠ [] ∧ (data.head? = some 0x00 ∨ data.head? = some 0xfe ∨ 9 ≤ data.length))) ∧
    (∀ e, ParseResponsePacket data ≠ .error (.error e)) := by
  cases data with
  | nil =>
    rw [ParseResponsePacket_nil]
    refine ⟨⟨?_, ?_⟩, ⟨?_, ?_⟩, ?_⟩
    · rintro ⟨r, hr⟩
      exact nomatch hr
    · rintro ⟨hne, -⟩
      exact absurd rfl hne
    · rintro - ⟨hne, -⟩
      exact absurd rfl hne
    · intro _
      rfl
    · intro e hne
      exact nomatch hne
  | cons b rest =>
    have hhead : (b :: rest).head? = some b := rfl
    have hne : b :: rest ≠ [] := List.cons_ne_nil b rest
    by_cases hb : b = 0x00 ∨ b = 0xfe
    · rw [ParseResponsePacket_ok_header b rest hb]
      have hc : (b :: rest).head? = some 0x00 ∨ (b :: rest).head? = some 0xfe ∨
          9 ≤ (b :: rest).length := by
        rcases hb with h | h
        · exact Or.inl (by rw [hhead, h])
        · exact Or.inr (Or.inl (by rw [hhead, h]))
      refine ⟨⟨fun _ => ⟨hne, hc⟩, fun _ => ⟨_, rfl⟩⟩, ⟨?_, ?_⟩, ?_⟩
      · intro h
        exact nomatch h
      · intro h
        exact absurd ⟨hne, hc⟩ h
      · intro e h
        exact nomatch h
    · have hnot : isOkResponsePacket b.val = false := by
        cases hc : isOkResponsePacket b.val with
        | false => rfl
        | true => exact absurd ((isOkResponsePacket_byte b).1 hc) hb
      have hb0 : ¬ (b :: rest).head? = some 0x00 := by
        rw [hhead]
        intro h
        exact hb (Or.inl (Option.some.inj h))
      have hb1 : ¬ (b :: rest).head? = some 0xfe := by
        rw [hhead]
        intro h
        exact hb (Or.inr (Option.some.inj h))
      rw [ParseResponsePacket_error_header b rest hnot]
      by_cases h9 : 9 ≤ (b :: rest).length
      · rw [if_pos h9]
        refine ⟨⟨fun _ => ⟨hne, Or.inr (Or.inr h9)⟩, fun _ => ⟨_, rfl⟩⟩, ⟨?_, ?_⟩, ?_⟩
        · intro h
          exact nomatch h
        · intro h
          exact absurd ⟨hne, Or.inr (Or.inr h9)⟩ h
        · intro e h
          exact nomatch h
      · rw [if_neg h9]
        have hcond : ¬ (b :: rest ≠ [] ∧ ((b :: rest).head? = some 0x00 ∨
            (b :: rest).head? = some 0xfe ∨ 9 ≤ (b :: rest).length)) := by
          rintro ⟨-, h | h | h⟩
          · exact hb0 h
          · exact hb1 h
          · exact h9 h
        refine ⟨⟨?_, fun h => absurd h hcond⟩, ⟨fun _ => hcond, fun _ => rfl⟩, ?_⟩
        · rintro ⟨r, hr⟩
          exact nomatch hr
        · intro e h
          exact nomatch h

theorem C16_reply_parse_in_range_witness :
    (ParseResponsePacket [0xff, 0x15, 0x04, 1, 2, 3, 4, 5] = .error .panic ∧
      ParseResponsePacket [0xfe, 3] = .ok { header := 0xfe, errorCode := 0, errorMessage := [] }) ∧
    (((∃ r, ParseResponsePacket [0xff, 0x15, 0x04, 1, 2, 3, 4, 5] = .ok r) ↔
      (([0xff, 0x15, 0x04, 1, 2, 3, 4, 5] : List Byte) ≠ [] ∧
        (([0xff, 0x15, 0x04, 1, 2, 3, 4, 5] : List Byte).head? = some 0x00 ∨
         ([0xff, 0x15, 0x04, 1, 2, 3, 4, 5] : List Byte).head? = some 0xfe ∨
         9 ≤ ([0xff, 0x15, 0x04, 1, 2, 3, 4, 5] : List Byte).length))) ∧
    (ParseResponsePacket [0xff, 0x15, 0x04, 1, 2, 3, 4, 5] = .error .panic ↔
      ¬ (([0xff, 0x15, 0x04, 1, 2, 3, 4, 5] : List Byte) ≠ [] ∧
        (([0xff, 0x15, 0x04, 1, 2, 3, 4, 5] : List Byte).head? = some 0x00 ∨
         ([0xff, 0x15, 0x04, 1, 2, 3, 4, 5] : List Byte).head? = some 0xfe ∨
         9 ≤ ([0xff, 0x15, 0x04, 1, 2, 3, 4, 5] : List Byte).length))) ∧
    (∀ e, ParseResponsePacket [0xff, 0x15, 0x04, 1, 2, 3, 4, 5] ≠ .error (.error e))) :=
  ⟨by decide, C16_reply_parse_in_range [0xff, 0x15, 0x04, 1, 2, 3, 4, 5]⟩

/-! ## Strings without a terminator -/

theorem readStringNulLoop_unterminated (data : List Byte) (h : ∀ b ∈ data, b ≠ 0) :
    ∀ i : Nat, readStringNulLoop data i = 0 := by
  induction data with
  | nil => intro i; rfl
  | cons b rest ih =>
    intro i
    have hb : b ≠ 0 := h b (List.mem_cons_self _ _)
    have hrest : ∀ c ∈ rest, c ≠ 0 := fun c hc => h c (List.mem_cons_of_mem _ hc)
    rw [readStringNulLoop, if_neg hb, ih hrest (i + 1)]

theorem readStringNul_unterminated (data : List Byte) (h : ∀ b ∈ data, b ≠ 0) :
    readStringNul data = ([], 1) := by
  unfold readStringNul
  simp only [readStringNulLoop_unterminated data h 0, List.take_zero, Nat.zero_add]

/-- The first stage of the parser on a payload laid out field by field,
whatever `readStringNul` makes of the bytes after the version: `skip` is
the run of bytes it reports as consumed. -/
theorem parseFlags_layout (skip sv cid part1 : List Byte) (filler : Byte) (lower : List Byte)
    (charset : Byte) (status upper tail : List Byte)
    (hrs : readStringNul (skip ++
      (cid ++ part1 ++ [filler] ++ lower ++ [charset] ++ status ++ upper ++ tail)) =
        (sv, skip.length))
    (hcid : cid.length = 4) (hp1 : part1.length = 8) (hlo : lower.length = 2)
    (hst : status.length = 2) (hup : upper.length = 2) :
    parseFlags ([10] ++ skip ++ cid ++ part1 ++ [filler] ++ lower ++ [charset] ++
        status ++ upper ++ tail) =
      .ok { serverVersion := sv, connectionId := littleEndian cid,
            authPluginDataPart1 := part1,
            capabilityFlags := littleEndian upper <<< 16 ||| littleEndian lower,
            offset := 21 + skip.length } := by
  generalize hp : [10] ++ skip ++ cid ++ part1 ++ [filler] ++ lower ++ [charset] ++
        status ++ upper ++ tail = payload
  have h0 : slice payload 0 (0 + protocolVersionLen) = .ok [10] :=
    slice_of_split payload [] [10]
      (skip ++ cid ++ part1 ++ [filler] ++ lower ++ [charset] ++ status ++ upper ++ tail)
      _ _ (by subst hp; simp) rfl rfl
  have h1 : sliceFrom payload (0 + protocolVersionLen) = .ok (skip ++
      (cid ++ part1 ++ [filler] ++ lower ++ [charset] ++ status ++ upper ++ tail)) :=
    sliceFrom_of_split payload [10] _ _ (by subst hp; simp) rfl
  have h2 : slice payload (0 + protocolVersionLen + skip.length)
      (0 + protocolVersionLen + skip.length + connectionIdLen) = .ok cid :=
    slice_of_split payload ([10] ++ skip) cid
      (part1 ++ [filler] ++ lower ++ [charset] ++ status ++ upper ++ tail)
      _ _ (by subst hp; simp) (by simp [protocolVersionLen]; omega)
      (by rw [hcid]; rfl)
  have h3 : slice payload (0 + protocolVersionLen + skip.length + connectionIdLen)
      (0 + protocolVersionLen + skip.length + connectionIdLen + authPluginDataPart1Len)
      = .ok part1 :=
    slice_of_split payload ([10] ++ skip ++ cid) part1
      ([filler] ++ lower ++ [charset] ++ status ++ upper ++ tail)
      _ _ (by subst hp; simp) (by simp [protocolVersionLen, connectionIdLen, hcid]; omega)
      (by rw [hp1]; rfl)
  have h4 : slice payload
      (0 + protocolVersionLen + skip.length + connectionIdLen + authPluginDataPart1Len + 1)
      (0 + protocolVersionLen + skip.length + connectionIdLen + authPluginDataPart1Len + 1
        + capabilityFlagsLen) = .ok lower :=
    slice_of_split payload ([10] ++ skip ++ cid ++ part1 ++ [filler]) lower
      ([charset] ++ status ++ upper ++ tail)
      _ _ (by subst hp; simp)
      (by simp [protocolVersionLen, connectionIdLen, authPluginDataPart1Len, hcid, hp1]; omega)
      (by rw [hlo]; rfl)
  have h5 : slice payload
      (0 + protocolVersionLen + skip.length + connectionIdLen + authPluginDataPart1Len + 1
        + capabilityFlagsLen + 1 + statusFlagsLen)
      (0 + protocolVersionLen + skip.length + connectionIdLen + authPluginDataPart1Len + 1
        + capabilityFlagsLen + 1 + statusFlagsLen + capabilityFlagsLen) = .ok upper :=
    slice_of_split payload
      ([10] ++ skip ++ cid ++ part1 ++ [filler] ++ lower ++ [charset] ++ status) upper
      tail _ _ (by subst hp; simp)
      (by simp [protocolVersionLen, connectionIdLen, authPluginDataPart1Len, capabilityFlagsLen,
            statusFlagsLen, hcid, hp1, hlo, hst]; omega)
      (by rw [hup]; rfl)
  simp only [parseFlags, bind, Except.bind, pure, Except.pure, h0, h1, hrs, h2, h3, h4, h5,
    readInt_singleton, readString]
  rw [readInt_eq cid (by omega), readInt_eq lower (by omega), readInt_eq upper (by omega)]
  have h10 : ((10 : Byte) : Nat) = 10 := rfl
  simp only [h10, ne_eq, not_true_eq_false, if_false, protocolVersionLen, connectionIdLen,
    authPluginDataPart1Len, capabilityFlagsLen, statusFlagsLen]
  congr 2
  omega

set_option maxRecDepth 4096 in
theorem authPluginNameNative_ne_nil : ([] : List Byte) ≠ authPluginNameNative := by
  decide

/-- C17: for every byte sequence without a zero byte, the empty one
included, `readStringNul` returns the empty string with consumed count 1
and does not fail.  So a server version without terminator is read as ""
and the parser goes on one byte after the version byte, taking the
connection id from offset 2; and a plugin name without terminator is read
as "", which the plugin check then rejects. -/
theorem C17_unterminated_string (data : List Byte) (h : ∀ b ∈ data, b ≠ 0) :
    readStringNul data = ([], 1) ∧
    (∀ (x : Byte) (cid part1 : List Byte) (filler : Byte) (lower : List Byte) (charset : Byte)
      (status upper tail : List Byte),
      data = [x] ++ (cid ++ part1 ++ [filler] ++ lower ++ [charset] ++ status ++ upper ++ tail) →
      cid.length = 4 → part1.length = 8 → lower.length = 2 → status.length = 2 →
      upper.length = 2 →
      parseFlags ([10] ++ [x] ++ cid ++ part1 ++ [filler] ++ lower ++ [charset] ++ status ++
          upper ++ tail) =
        .ok { serverVersion := [], connectionId := littleEndian cid,
              authPluginDataPart1 := part1,
              capabilityFlags := littleEndian upper <<< 16 ||| littleEndian lower,
              offset := 22 }) ∧
    (∀ (payload : List Byte) (st : FlagsStage) (len off : Nat),
      st.capabilityFlags &&& clientSecureConnection ≠ 0 →
      off + max 13 (len - 8) ≤ payload.length →
      payload.drop (off + max 13 (len - 8)) = data →
      parseAuthPlugin payload st len off = .error (.error .unsupportedAuthPlugin)) := by
  have hr := readStringNul_unterminated data h
  refine ⟨hr, ?_, ?_⟩
  · intro x cid part1 filler lower charset status upper tail hdata hcid hp1 hlo hst hup
    rw [hdata] at hr
    exact parseFlags_layout [x] [] cid part1 filler lower charset status upper tail hr
      hcid hp1 hlo hst hup
  · intro payload st len off hsec hroom hdrop
    apply parseAuthPlugin_rejects payload st len off hsec hroom
    right
    rw [hdrop, hr]
    exact authPluginNameNative_ne_nil

set_option maxRecDepth 100000 in
theorem C17_unterminated_string_witness :
    ((∀ b ∈ List.replicate 21 (7 : Byte), b ≠ 0) ∧
      parseFlags unterminatedPayload =
        .ok (FlagsStage.mk [] (littleEndian [7, 7, 7, 7]) (List.replicate 8 7)
          (littleEndian [7, 7] <<< 16 ||| littleEndian [7, 7]) 22) ∧
      readStringNul [] = ([], 1)) ∧
    readStringNul (List.replicate 21 (7 : Byte)) = ([], 1) :=
  ⟨by decide, (C17_unterminated_string (List.replicate 21 7) (by decide)).1⟩

/-! ## The unchecked error of the reply's header -/

theorem connRead_cases (rd : List Event) (m : Nat) :
    ((connRead rd m).1.2 = none) ∨ ((connRead rd m).1.1 = [] ∧ (connRead rd m).1.2 ≠ none) := by
  cases rd with
  | nil => right; exact ⟨rfl, fun h => nomatch h⟩
  | cons ev rest =>
    cases ev with
    | fail e => right; exact ⟨rfl, fun h => nomatch h⟩
    | data c =>
      left
      rw [connRead_data]

/-- No call of `Read` leaves an error pending in the reader. -/
theorem Reader.Read_err_none (b : Reader) (n : Nat) (he : b.err = none) :
    (b.Read n).2.err = none := by
  by_cases h0 : n = 0
  · simp only [Reader.Read, h0, if_true]
    split
    · exact he
    · rfl
  · by_cases hbuf : b.buf.length = 0
    · by_cases hbig : n ≥ defaultBufSize
      · rcases hcr : connRead b.rd n with ⟨⟨bytes, e⟩, rd⟩
        simp only [Reader.Read, h0, hbuf, he, hbig, if_false, if_true, ne_eq, not_true_eq_false,
          hcr, Reader.readErr]
      · rcases hcr : connRead b.rd defaultBufSize with ⟨⟨bytes, e⟩, rd⟩
        simp only [Reader.Read, h0, hbuf, he, hbig, if_false, if_true, ne_eq, not_true_eq_false,
          hcr, Reader.readErr]
        split
        · rfl
        · rename_i hlen
          rcases connRead_cases b.rd defaultBufSize with h | h
          · rw [hcr] at h
            exact h
          · rw [hcr] at h
            have hb : bytes = [] := h.1
            exact absurd (by rw [hb]; rfl) hlen
    · simp only [Reader.Read, h0, hbuf, if_false]
      exact he

theorem readData_err_none (b : Reader) (n : Nat) (he : b.err = none) :
    (readData b n).2.err = none := by
  have h := Reader.Read_err_none b n he
  rcases hR : b.Read n with ⟨⟨data, err⟩, r⟩
  rw [hR] at h
  simp only [readData, hR]
  cases err with
  | some e => exact h
  | none =>
    simp only
    split
    · exact h
    · exact h

theorem readHeader_err_none (b : Reader) (he : b.err = none) :
    (readHeader b).2.err = none := by
  have h := readData_err_none b packetHeaderLen he
  unfold readHeader
  split
  · rename_i heq
    rw [heq] at h
    exact h
  · rename_i heq
    rw [heq] at h
    exact h

theorem readHeader_error_length (b r : Reader) (a s : Nat) (e : GoError)
    (h : readHeader b = ((a, s, some e), r)) : a = 0 := by
  unfold readHeader at h
  split at h
  · simp only [Prod.mk.injEq] at h
    exact h.1.1.symm
  · simp only [Prod.mk.injEq] at h
    exact nomatch h.1.2.2

/-- Whenever the header read of the reply fails, after the response has
been sent, `Handshake` goes on to read a payload of length 0 and to parse
it, and panics on the empty payload; the error of the header read is
not returned. -/
theorem Handshake_reply_header_error (sha1 : List Byte → Sum20) (conn conn2 : Conn)
    (username password payload response : List Byte) (n s a t : Nat) (r1 r2 r3 : Reader)
    (e : GoError)
    (h1 : readHeader (NewReader conn) = ((n, s, none), r1))
    (h2 : readPayload r1 n = (.ok payload, r2))
    (hr : handshakeResponse sha1 username password payload = .ok response)
    (hw : writeAndFlush { conn with incoming := r2.rd } (responseHeader response ++ response) =
      (none, conn2))
    (h3 : readHeader r2 = ((a, t, some e), r3)) :
    (Handshake sha1 conn username password).1 = .panicked := by
  have he1 : r1.err = none := by
    have := readHeader_err_none (NewReader conn) rfl
    rw [h1] at this
    exact this
  have he2 : r2.err = none := by
    have := readData_err_none r1 n he1
    rw [readPayload] at h2
    rw [h2] at this
    exact this
  have he3 : r3.err = none := by
    have := readHeader_err_none r2 he2
    rw [h3] at this
    exact this
  have ha : a = 0 := readHeader_error_length r2 r3 a t e h3
  subst ha
  have h4 : readPayload r3 0 = (.ok [], r3) := by
    rw [readPayload, readData_buffered r3 0 he3 (Or.inr rfl), if_pos (Nat.zero_le _)]
    rfl
  unfold Handshake
  simp only [h1, h2, hr, hw, h3, h4, ParseResponsePacket_nil]

set_option maxRecDepth 100000 in
/-- C11 does not hold of the code: when the header read of the server's
reply fails, `Handshake` does not return that error.  The error is
overwritten by the payload read that follows (lines 138-139), which reads
a payload of length 0 and succeeds; the empty payload is then parsed, and
the parse panics.  Shown on three connections that deliver the handshake
packet of the end-to-end scenario and then end (`io.EOF`), fail (a
transport error), or deliver only two bytes (the data-length error). -/
theorem C11_reply_header_error_dropped :
    (readHeader (NewReader noReplyConn) = ((74, 0, none), Reader.mk e2ePayload none []) ∧
     readPayload (Reader.mk e2ePayload none []) 74 = (.ok e2ePayload, Reader.mk [] none []) ∧
     readHeader (Reader.mk [] none []) = ((0, 0, some .eof), Reader.mk [] none []) ∧
     readPayload (Reader.mk [] none []) 0 = (.ok [], Reader.mk [] none []) ∧
     ParseResponsePacket [] = .error .panic ∧
     (Handshake toySha1 noReplyConn (strBytes "slave") (strBytes "slave")).1 = .panicked ∧
     (Handshake toySha1 noReplyConn (strBytes "slave") (strBytes "slave")).1 ≠
      .returned (some .eof)) ∧
    (readHeader (Reader.mk [] none [.fail (.transport 1)]) =
      ((0, 0, some (.transport 1)), Reader.mk [] none []) ∧
     (Handshake toySha1 failedReplyConn (strBytes "slave") (strBytes "slave")).1 = .panicked ∧
     (Handshake toySha1 failedReplyConn (strBytes "slave") (strBytes "slave")).1 ≠
      .returned (some (.transport 1))) ∧
    (readHeader (Reader.mk [] none [.data [7, 0]]) =
      ((0, 0, some (.dataLength 4)), Reader.mk [] none []) ∧
     (Handshake toySha1 shortReplyConn (strBytes "slave") (strBytes "slave")).1 = .panicked ∧
     (Handshake toySha1 shortReplyConn (strBytes "slave") (strBytes "slave")).1 ≠
      .returned (some (.dataLength 4))) := by
  decide
end MysqlSlave
